import Mathlib

/-!
Failover decision engine of yoke (`decision.go`).

A shallow embedding of the decision engine: startup role resolution (`startType`,
`startupDB`), change detection (`clusterChanges`), the per-role transition logic
(`performAction` and its four handlers) and the event-loop handlers of
`DecisionStart`.

The decision thread is modelled by explicit state passing over `Node`.  The
collaborators that live outside `decision.go` (cluster transport, status store,
command channel, configuration) are modelled from the spec, see `Net`, `Env`
and the accessor functions below.
-/

namespace Yoke

/-- Modelled from the spec: the Status Record type (declared outside `decision.go`),
`CRole, DBRole, State, Ip, UpdatedAt`.  `UpdatedAt` is an instant, represented by an
integer count of clock units, so that `time.Time.After` is the strict order on `Int`. -/
structure Status where
  CRole : String
  DBRole : String
  State : String
  Ip : String
  UpdatedAt : Int
deriving DecidableEq, Repr

/-- Modelled from the spec: what the cluster collaborators answer at one instant.
`Whois` and `Whoisnot` return a `*Status` and an error: `none` stands for the failed
lookup (nil record, non-nil error), `some s` for a successful one.  `Cluster` is the
snapshot `Cluster()`, `ClusterOf who` the snapshot `Cluster(who)` as seen by `who`. -/
structure Net where
  Whois : String → Option Status
  Whoisnot : String → Option Status
  Cluster : List Status
  ClusterOf : String → List Status

/-- Modelled from the spec: the environment of one decision thread.  `view t` is what
the collaborators answer while the logical clock of the thread reads `t`; the clock advances
whenever the thread suspends or publishes (sleep, wait on the event sources, write to the
status store), so that answers may differ arbitrarily before and after such a point.
`DecisionTimeout` is the configuration value `conf.DecisionTimeout`, a signed machine
integer counting seconds. -/
structure Env where
  view : Nat → Net
  DecisionTimeout : Int

/-- Observable effects of the decision thread, in program order. -/
inductive Event where
  | setDBRole (r : String)
  | setState (s : String)
  | send (cmd : String)
  | sleep (d : Int)
deriving DecidableEq, Repr

/-- State of the decision thread: the status store own record (what `Whoami` reads),
the package variable `lastKnownCluster`, the effects performed so far, and the logical
clock selecting the current view of the environment. -/
structure Node where
  self : Status
  lastKnownCluster : List Status
  trace : List Event
  clock : Nat
deriving DecidableEq, Repr

/-- The commands sent on the `actions` channel so far, oldest first. -/
def commands (w : Node) : List String :=
  w.trace.filterMap fun e => match e with
    | .send c => some c
    | _ => none

/-- The effects performed between state `w` and a later state `w2`. -/
def effects (w w2 : Node) : List Event := w2.trace.drop w.trace.length

/-- The commands sent on the `actions` channel between state `w` and a later state `w2`. -/
def emitted (w w2 : Node) : List String :=
  (effects w w2).filterMap fun e => match e with
    | .send c => some c
    | _ => none

/-- Modelled from the spec: `Whoami()`, this node own current record. -/
def Whoami (w : Node) : Status := w.self

/-- Modelled from the spec: `Whoisnot(identity)`, the other data-holding member. -/
def Whoisnot (env : Env) (w : Node) (role : String) : Option Status :=
  (env.view w.clock).Whoisnot role

/-- Modelled from the spec: `Whois(identity)`. -/
def Whois (env : Env) (w : Node) (role : String) : Option Status :=
  (env.view w.clock).Whois role

/-- Modelled from the spec: `Cluster()`, the currently reachable member records. -/
def Cluster (env : Env) (w : Node) : List Status := (env.view w.clock).Cluster

/-- Modelled from the spec: `Cluster(who)`, the cluster as reported by member `who`. -/
def ClusterOf (env : Env) (w : Node) (who : String) : List Status :=
  (env.view w.clock).ClusterOf who

/-- Modelled from the spec: `status.SetDBRole(role)`, persisted and immediately visible
to subsequent local reads. -/
def SetDBRole (r : String) (w : Node) : Node :=
  { w with self := { w.self with DBRole := r }
           trace := w.trace ++ [Event.setDBRole r]
           clock := w.clock + 1 }

/-- Modelled from the spec: `status.SetState(state)`. -/
def SetState (s : String) (w : Node) : Node :=
  { w with self := { w.self with State := s }
           trace := w.trace ++ [Event.setState s]
           clock := w.clock + 1 }

/-- The channel send `actions <- cmd`. -/
def sendAction (cmd : String) (w : Node) : Node :=
  { w with trace := w.trace ++ [Event.send cmd] }

/-- The value of an integer expression stored in a Go `int64`: two-complement wrap-around
into the range from `-2^63` to `2^63 - 1`. -/
def wrapInt64 (x : Int) : Int := (x + 2 ^ 63) % 2 ^ 64 - 2 ^ 63

/-- The conversion `time.Duration(x)`: `time.Duration` is an `int64` count of nanoseconds. -/
def Duration (x : Int) : Int := wrapInt64 x

/-- The constant `time.Second`, in nanoseconds. -/
def Second : Int := 1000000000

/-- The product of two `time.Duration` values, computed in `int64`. -/
def mulDuration (a b : Int) : Int := wrapInt64 (a * b)

/-- The argument of the two sleeps of the transition engine,
`time.Duration(conf.DecisionTimeout) * time.Second`, in nanoseconds. -/
def decisionTimeout (env : Env) : Int := mulDuration (Duration env.DecisionTimeout) Second

/-- The call `time.Sleep(d)`, `d` in nanoseconds.  The effect records the duration that was
passed; `time.Sleep` pauses for at least `d` when `d` is positive and returns at once when
`d` is zero or negative.  In either case the collaborators may answer differently
afterwards, so the clock advances. -/
def Sleep (d : Int) (w : Node) : Node :=
  { w with trace := w.trace ++ [Event.sleep d], clock := w.clock + 1 }

/-- Source `updateStatusRole`: set the role, then refresh `lastKnownCluster`. -/
def updateStatusRole (env : Env) (r : String) (w : Node) : Node :=
  let w1 := SetDBRole r w
  { w1 with lastKnownCluster := Cluster env w1 }

/-- Source `startType`.  A Go panic is the `error` result: the explicit panic at the end
of the function, and the nil dereference `other.DBRole` when the peer lookup failed. -/
def startType (env : Env) (w : Node) (dflt : String) : Except String String :=
  let self := Whoami w
  if self.DBRole = "initialized" then .ok dflt
  else if self.DBRole = "single" ∨ self.DBRole = "dead(single)" then .ok "master"
  else if self.DBRole = "master" ∨ self.DBRole = "dead(master)" then
    match Whoisnot env w self.CRole with
    | none => .error "nil pointer dereference"
    | some other =>
      if other.DBRole = "single" ∨ other.DBRole = "dead(single)" then .ok "slave"
      else if other.DBRole = "master" ∧ self.UpdatedAt < other.UpdatedAt then .ok "slave"
      else .ok "master"
  else if self.DBRole = "slave" ∨ self.DBRole = "dead(slave)" then .ok "slave"
  else .error "i should have caught all scenarios"

/-- The loop of source `clusterChanges` over `lastKnownCluster`: true as soon as a cached
member fails to resolve or resolves to a record with another `DBRole`. -/
def memberChanged (env : Env) (w : Node) : List Status → Bool
  | [] => false
  | member :: rest =>
    match Whois env w member.CRole with
    | none => true
    | some remote =>
      if member.DBRole ≠ remote.DBRole then true
      else memberChanged env w rest

/-- Source `clusterChanges`: the returned flag and the state afterwards. -/
def clusterChanges (env : Env) (w : Node) : Bool × Node :=
  let c := Cluster env w
  if w.lastKnownCluster.length ≠ c.length then
    (true, { w with lastKnownCluster := c })
  else if memberChanged env w w.lastKnownCluster then
    (true, { w with lastKnownCluster := c })
  else (false, w)

/-- Source `performActionFromSingle`. -/
def performActionFromSingle (env : Env) (w : Node) (_self : Status)
    (other : Option Status) : Node :=
  let mon := Whois env w "monitor"
  if other = none ∧ mon = none then
    sendAction "kill" (updateStatusRole env "dead(single)" w)
  else if other = none then w
  else if mon = none then w
  else if other ≠ none ∧ mon ≠ none then
    sendAction "master" (updateStatusRole env "master" w)
  else w

/-- The two early exits of source `performActionFromMaster` read the role of a non-nil
peer; this is the test `other != nil && other.DBRole == r`. -/
def otherHasRole (other : Option Status) (r : String) : Bool :=
  match other with
  | none => false
  | some o => o.DBRole = r

/-- Source `performActionFromMaster`. -/
def performActionFromMaster (env : Env) (w : Node) (self : Status)
    (other : Option Status) : Node :=
  if otherHasRole other "slave" then w
  else if otherHasRole other "dead(slave)" then
    sendAction "single" (updateStatusRole env "single" w)
  else
    let w1 := Sleep (decisionTimeout env) w
    let other1 := Whoisnot env w1 self.CRole
    if other1 ≠ none then w1
    else
      let mon := Whois env w1 "monitor"
      if mon ≠ none then
        sendAction "single" (updateStatusRole env "single" w1)
      else
        sendAction "kill" (updateStatusRole env "dead(master)" w1)

/-- The identity string the slave handler looks for in the monitor view: the Go local
`var other string`, left at its zero value when self is neither primary nor secondary. -/
def otherCRole (self : Status) : String :=
  if self.CRole = "primary" then "secondary"
  else if self.CRole = "secondary" then "primary"
  else ""

/-- The loop of source `performActionFromSlave` over `Cluster("monitor")`. -/
def monitorKnows (other : String) (view : List Status) : Bool :=
  view.foldl (fun known memb => if memb.CRole = other then true else known) false

/-- Source `performActionFromSlave`. -/
def performActionFromSlave (env : Env) (w : Node) (self : Status)
    (other : Option Status) : Node :=
  if otherHasRole other "master" then w
  else if otherHasRole other "dead(master)" then
    if self.State ≠ "(slave)running" then
      sendAction "kill" (updateStatusRole env "dead(slave)" w)
    else
      sendAction "single" (updateStatusRole env "single" w)
  else
    let w1 := Sleep (decisionTimeout env) w
    let other1 := Whoisnot env w1 self.CRole
    if other1 ≠ none then w1
    else
      let mon := Whois env w1 "monitor"
      if mon ≠ none then
        if self.State ≠ "(slave)running" then
          sendAction "kill" (updateStatusRole env "dead(slave)" w1)
        else if monitorKnows (otherCRole self) (ClusterOf env w1 "monitor") then
          sendAction "kill" (updateStatusRole env "dead(slave)" w1)
        else
          sendAction "single" (updateStatusRole env "single" w1)
      else
        sendAction "kill" (updateStatusRole env "dead(slave)" w1)

/-- Source `performActionFromDead`.  The `error` result is a Go panic: the one of the
`default` branch, or one raised inside `startType`. -/
def performActionFromDead (env : Env) (w : Node) (self : Status)
    (other : Option Status) : Except String Node :=
  let c := Cluster env w
  if other ≠ none ∧ c.length = 3 then
    if self.DBRole = "dead(single)" then
      .ok (sendAction "master" (updateStatusRole env "master" w))
    else if self.DBRole = "dead(master)" then
      match startType env w "master" with
      | .error e => .error e
      | .ok newRole => .ok (sendAction newRole (updateStatusRole env newRole w))
    else if self.DBRole = "dead(slave)" then
      match startType env w "slave" with
      | .error e => .error e
      | .ok newRole => .ok (sendAction newRole (updateStatusRole env newRole w))
    else .error ("i dont know how to be a " ++ self.DBRole)
  else .ok w

/-- Source `performAction`: read self and the peer, dispatch on `self.DBRole`.  The Go
`switch` has no `default`, so any other role falls through and the function returns. -/
def performAction (env : Env) (w : Node) : Except String Node :=
  let self := Whoami w
  let other := Whoisnot env w self.CRole
  if self.DBRole = "single" then .ok (performActionFromSingle env w self other)
  else if self.DBRole = "master" then .ok (performActionFromMaster env w self other)
  else if self.DBRole = "slave" then .ok (performActionFromSlave env w self other)
  else if self.DBRole = "dead(master)" ∨ self.DBRole = "dead(slave)"
      ∨ self.DBRole = "dead(single)" then
    performActionFromDead env w self other
  else .ok w

/-- Source `startupDB`. -/
def startupDB (env : Env) (w : Node) : Except String Node :=
  let self := Whoami w
  if self.CRole = "primary" then
    match startType env w "master" with
    | .error e => .error e
    | .ok r => .ok (sendAction r (updateStatusRole env r w))
  else if self.CRole = "secondary" then
    match startType env w "slave" with
    | .error e => .error e
    | .ok r => .ok (sendAction r (updateStatusRole env r w))
  else .ok w

/-- Source `DecisionStart`, the `case adv := <-advice` branch of the event loop. -/
def onAdvice (env : Env) (adv : String) (w : Node) : Except String Node :=
  let self := Whoami w
  if adv = "demote" ∧ self.DBRole = "master" then
    .ok (sendAction "kill" (updateStatusRole env "dead(master)" w))
  else
    let r := clusterChanges env w
    if r.1 then performAction env r.2 else .ok r.2

/-- Source `DecisionStart`, the `case <-timer` branch of the event loop. -/
def onTimer (env : Env) (w : Node) : Except String Node :=
  let r := clusterChanges env w
  if r.1 then performAction env r.2 else .ok r.2

/-- What the `select` of the event loop can receive. -/
inductive Input where
  | advice (adv : String)
  | timer
deriving DecidableEq, Repr

/-- The blocking `select`: the thread is suspended until an input arrives. -/
def await (w : Node) : Node := { w with clock := w.clock + 1 }

/-- Source `DecisionStart`, the `for { select { ... } }` loop, run over the finite list of
inputs received so far. -/
def eventLoop (env : Env) : List Input → Node → Except String Node
  | [], w => .ok w
  | i :: rest, w =>
    let w1 := await w
    let step := match i with
      | .advice adv => onAdvice env adv w1
      | .timer => onTimer env w1
    match step with
    | .error e => .error e
    | .ok w2 => eventLoop env rest w2

/-- Source `DecisionStart`, the body of the decision goroutine, entered once
`waitForClusterFull` has returned. -/
def decisionBody (env : Env) (inputs : List Input) (w : Node) : Except String Node :=
  let self := Whoami w
  if self.CRole = "monitor" then
    .ok (SetState "running" (SetDBRole "monitor" w))
  else
    match startupDB env w with
    | .error e => .error e
    | .ok w1 =>
      let w2 := { w1 with lastKnownCluster := Cluster env w1 }
      eventLoop env inputs w2

/-- The function `performAction` invoked `n` times in a row, each run starting from the
state the previous one left; a panic in one run ends the sequence. -/
def performActionTimes (env : Env) : Nat → Node → Except String Node
  | 0, w => .ok w
  | n + 1, w =>
    match performAction env w with
    | .error e => .error e
    | .ok w1 => performActionTimes env n w1

/-- The role updates that occur in `performAction`, listed by the role before the run:
`stepAllowed old r c` holds when a handler entered with role `old` contains the pair
`updateStatusRole(r); actions <- c`. -/
def stepAllowed (old r c : String) : Prop :=
  (old = "single" ∧ ((r = "dead(single)" ∧ c = "kill") ∨ (r = "master" ∧ c = "master"))) ∨
  (old = "master" ∧ ((r = "single" ∧ c = "single") ∨ (r = "dead(master)" ∧ c = "kill"))) ∨
  (old = "slave" ∧ ((r = "single" ∧ c = "single") ∨ (r = "dead(slave)" ∧ c = "kill"))) ∨
  (old = "dead(single)" ∧ r = "master" ∧ c = "master") ∨
  (old = "dead(master)" ∧ ((r = "master" ∧ c = "master") ∨ (r = "slave" ∧ c = "slave"))) ∨
  (old = "dead(slave)" ∧ r = "slave" ∧ c = "slave")

/-- The command rule of the spec for one invocation that led from state `w` to state `w2`:
at most one command is emitted; every emitted command is one of `kill`, `master`, `slave`,
`single`; a command is emitted exactly when the role was written, and the role written is
the role self has afterwards; the command is `kill` exactly when that new role is a
`dead(...)` role, and otherwise the command equals the new role. -/
def CommandRule (w w2 : Node) : Prop :=
  (emitted w w2).length ≤ 1 ∧
  (∀ c ∈ emitted w w2, c = "kill" ∨ c = "master" ∨ c = "slave" ∨ c = "single") ∧
  (emitted w w2 ≠ [] ↔ ∃ r, Event.setDBRole r ∈ effects w w2) ∧
  (∀ r, Event.setDBRole r ∈ effects w w2 → w2.self.DBRole = r) ∧
  (∀ c ∈ emitted w w2,
    (c = "kill" ↔ (w2.self.DBRole = "dead(single)" ∨ w2.self.DBRole = "dead(master)" ∨
      w2.self.DBRole = "dead(slave)")) ∧
    (c ≠ "kill" → c = w2.self.DBRole))

/-- The order of effects of `updateStatusRole(r); actions <- c` for an invocation that led
from state `w` to state `w2`: up to a state `w0` the invocation only slept; then the role
`r` was written, which is the role self has in `w2`; then the command `c` was sent; and
Last-Known-Cluster in `w2` is the snapshot read in the state the role write produced,
which is also the snapshot at the clock of `w2`. -/
def UpdatedThenRefreshed (env : Env) (w w2 : Node) : Prop :=
  ∃ w0 r c,
    (∀ e ∈ effects w w0, ∃ n, e = Event.sleep n) ∧
    effects w w2 = effects w w0 ++ [Event.setDBRole r, Event.send c] ∧
    w2.self.DBRole = r ∧
    w2.lastKnownCluster = Cluster env (SetDBRole r w0) ∧
    Cluster env w2 = Cluster env (SetDBRole r w0)

/-- The peer record seen when `performAction` is entered (`none`: peer unreachable). -/
def peerOnEntry (env : Env) (w : Node) : Option Status := Whoisnot env w w.self.CRole

/-- The monitor record seen when `performAction` is entered (`none`: unreachable). -/
def monitorOnEntry (env : Env) (w : Node) : Option Status := Whois env w "monitor"

/-- The peer record seen by the re-check after the decision-timeout. -/
def peerAfterTimeout (env : Env) (w : Node) : Option Status :=
  Whoisnot env (Sleep (decisionTimeout env) w) w.self.CRole

/-- The monitor record seen after the decision-timeout. -/
def monitorAfterTimeout (env : Env) (w : Node) : Option Status :=
  Whois env (Sleep (decisionTimeout env) w) "monitor"

/-- The cluster as reported by the monitor after the decision-timeout. -/
def monitorViewAfterTimeout (env : Env) (w : Node) : List Status :=
  ClusterOf env (Sleep (decisionTimeout env) w) "monitor"

/-! ## Concrete cluster members and environments used to evaluate the code -/

/-- A record with the given identity, role, state and update instant. -/
def mkStatus (crole dbrole state : String) (at_ : Int) : Status :=
  { CRole := crole, DBRole := dbrole, State := state, Ip := "10.0.0.1", UpdatedAt := at_ }

/-- A view in which the peer lookup answers `peer`, the monitor lookup answers `mon`, every
other identity lookup fails, the snapshot is `c` and the monitor reports `mc`. -/
def mkNet (peer mon : Option Status) (c mc : List Status) : Net :=
  { Whois := fun who => if who = "monitor" then mon else none
    Whoisnot := fun _ => peer
    Cluster := c
    ClusterOf := fun _ => mc }

/-- An environment that answers `n0` while the clock reads 0 and `n1` afterwards. -/
def mkEnv (n0 n1 : Net) : Env :=
  { view := fun t => if t = 0 then n0 else n1, DecisionTimeout := 5 }

/-- A decision thread at clock 0 with the given own record and an empty cache. -/
def mkNode (self : Status) : Node :=
  { self := self, lastKnownCluster := [], trace := [], clock := 0 }

/-- The monitor record used in the concrete scenarios. -/
def exMonitor : Status := mkStatus "monitor" "monitor" "running" 0

/-- A full snapshot: primary, secondary and monitor. -/
def exFull (p q : Status) : List Status := [p, q, exMonitor]

/-- A view built from a snapshot `c`: identities resolve to their record in `c`, the peer
lookup answers the first member that is neither the asking identity nor the monitor, and
the monitor reports `c` as well. -/
def netOf (c : List Status) : Net :=
  { Whois := fun who => c.find? (fun m => m.CRole = who)
    Whoisnot := fun who => c.find? (fun m => m.CRole ≠ who ∧ m.CRole ≠ "monitor")
    Cluster := c
    ClusterOf := fun _ => c }

/-- The primary as `master` and the secondary as `slave`, as last cached. -/
def exCached : List Status :=
  exFull (mkStatus "primary" "master" "running" 10)
    (mkStatus "secondary" "slave" "(slave)syncing" 11)

/-- The same cluster later: same roles, but the secondary has finished syncing and both
data members have newer timestamps. -/
def exFresh : List Status :=
  exFull (mkStatus "primary" "master" "running" 20)
    (mkStatus "secondary" "slave" "(slave)running" 21)

/-- The primary, `master`, holding `exCached` as Last-Known-Cluster. -/
def exMasterNode : Node :=
  { self := mkStatus "primary" "master" "running" 10, lastKnownCluster := exCached,
    trace := [], clock := 0 }

/-- The cluster as seen once the primary has gone `single`: the secondary is gone, the
primary shows its new role, the monitor is there. -/
def exAlone : List Status := [mkStatus "primary" "single" "running" 30, exMonitor]

/-- C1: with a reachable peer `o`, `startType d` returns `d` for `initialized`, `master` for
`single` and `dead(single)`, `slave` for `slave` and `dead(slave)`, and for `master` and
`dead(master)` it returns `slave` exactly when the peer is `single` or `dead(single)`, or
is `master` with an `UpdatedAt` strictly after the one of self, and `master` in every
other case, equal timestamps included. -/
theorem startType_table (env : Env) (w : Node) (d : String) (o : Status)
    (hpeer : Whoisnot env w w.self.CRole = some o) :
    (w.self.DBRole = "initialized" → startType env w d = .ok d) ∧
    (w.self.DBRole = "single" ∨ w.self.DBRole = "dead(single)" →
      startType env w d = .ok "master") ∧
    (w.self.DBRole = "slave" ∨ w.self.DBRole = "dead(slave)" →
      startType env w d = .ok "slave") ∧
    (w.self.DBRole = "master" ∨ w.self.DBRole = "dead(master)" →
      (startType env w d = .ok "slave" ↔
        (o.DBRole = "single" ∨ o.DBRole = "dead(single)" ∨
          (o.DBRole = "master" ∧ w.self.UpdatedAt < o.UpdatedAt))) ∧
      (¬ (o.DBRole = "single" ∨ o.DBRole = "dead(single)" ∨
          (o.DBRole = "master" ∧ w.self.UpdatedAt < o.UpdatedAt)) →
        startType env w d = .ok "master") ∧
      (o.DBRole = "master" → o.UpdatedAt = w.self.UpdatedAt →
        startType env w d = .ok "master")) := by
  refine ⟨?_, ?_, ?_, ?_⟩
  · intro h
    simp [startType, Whoami, h]
  · intro h
    rcases h with h | h <;> simp [startType, Whoami, h]
  · intro h
    rcases h with h | h <;> simp [startType, Whoami, h]
  · intro h
    have hst : startType env w d =
        if o.DBRole = "single" ∨ o.DBRole = "dead(single)" then .ok "slave"
        else if o.DBRole = "master" ∧ w.self.UpdatedAt < o.UpdatedAt then .ok "slave"
        else .ok "master" := by
      rcases h with h | h <;> simp [startType, Whoami, h, hpeer]
    refine ⟨?_, ?_, ?_⟩
    · rw [hst]
      by_cases h1 : o.DBRole = "single" ∨ o.DBRole = "dead(single)"
      · rw [if_pos h1]
        constructor
        · intro _
          rcases h1 with h1 | h1
          · exact Or.inl h1
          · exact Or.inr (Or.inl h1)
        · intro _
          rfl
      · rw [if_neg h1]
        by_cases h2 : o.DBRole = "master" ∧ w.self.UpdatedAt < o.UpdatedAt
        · rw [if_pos h2]
          constructor
          · intro _
            exact Or.inr (Or.inr h2)
          · intro _
            rfl
        · rw [if_neg h2]
          constructor
          · intro hc
            simp at hc
          · intro hc
            rcases hc with hc | hc | hc
            · exact absurd (Or.inl hc) h1
            · exact absurd (Or.inr hc) h1
            · exact absurd hc h2
    · intro hn
      rw [hst]
      have h1 : ¬ (o.DBRole = "single" ∨ o.DBRole = "dead(single)") := by
        intro hc
        rcases hc with hc | hc
        · exact hn (Or.inl hc)
        · exact hn (Or.inr (Or.inl hc))
      have h2 : ¬ (o.DBRole = "master" ∧ w.self.UpdatedAt < o.UpdatedAt) :=
        fun hc => hn (Or.inr (Or.inr hc))
      rw [if_neg h1, if_neg h2]
    · intro hm heq
      rw [hst]
      have h1 : ¬ (o.DBRole = "single" ∨ o.DBRole = "dead(single)") := by
        rw [hm]
        decide
      have h2 : ¬ (o.DBRole = "master" ∧ w.self.UpdatedAt < o.UpdatedAt) := by
        rw [heq]
        intro hc
        exact lt_irrefl _ hc.2
      rw [if_neg h1, if_neg h2]

/-- C1 at a concrete input: self was `master` at instant 10, the peer is `master` since
instant 10 as well, so the tie resolves to `master`. -/
theorem startType_table_witness :
    Whoisnot (mkEnv (mkNet (some (mkStatus "secondary" "master" "running" 10)) none [] [])
        (mkNet none none [] []))
      (mkNode (mkStatus "primary" "master" "running" 10))
      (mkNode (mkStatus "primary" "master" "running" 10)).self.CRole
      = some (mkStatus "secondary" "master" "running" 10) ∧
    startType (mkEnv (mkNet (some (mkStatus "secondary" "master" "running" 10)) none [] [])
        (mkNet none none [] []))
      (mkNode (mkStatus "primary" "master" "running" 10)) "slave" = .ok "master" :=
  ⟨rfl, ((startType_table
      (mkEnv (mkNet (some (mkStatus "secondary" "master" "running" 10)) none [] [])
        (mkNet none none [] []))
      (mkNode (mkStatus "primary" "master" "running" 10)) "slave"
      (mkStatus "secondary" "master" "running" 10) rfl).2.2.2 (Or.inl rfl)).2.2 rfl rfl⟩

/-! ## Shared lemmas on effects and dispatch -/

theorem wrapInt64_of_range (x : Int) (h1 : -(2 ^ 63) ≤ x) (h2 : x < 2 ^ 63) :
    wrapInt64 x = x := by
  unfold wrapInt64
  omega

/-- A timeout of 0 to 9223372036 seconds is passed to `time.Sleep` unchanged, as that many
seconds in nanoseconds: neither the conversion nor the product overflows. -/
theorem decisionTimeout_in_range (env : Env) (h0 : 0 ≤ env.DecisionTimeout)
    (h1 : env.DecisionTimeout ≤ 9223372036) :
    decisionTimeout env = env.DecisionTimeout * 1000000000 := by
  unfold decisionTimeout mulDuration Duration Second
  rw [wrapInt64_of_range env.DecisionTimeout (by omega) (by omega)]
  exact wrapInt64_of_range _ (by omega) (by omega)

/-- From 9223372037 seconds on the product wraps: the duration passed to `time.Sleep` is
negative, and the call returns at once. -/
theorem decisionTimeout_overflow :
    decisionTimeout { view := fun _ => mkNet none none [] [], DecisionTimeout := 9223372037 }
      = -9223372036709551616 := by
  decide

theorem effects_self (w : Node) : effects w w = [] := by
  simp [effects]

theorem effects_move (env : Env) (r c : String) (w : Node) :
    effects w (sendAction c (updateStatusRole env r w)) = [Event.setDBRole r, Event.send c] := by
  simp [effects, sendAction, updateStatusRole, SetDBRole]

theorem effects_sleep (n : Int) (w : Node) : effects w (Sleep n w) = [Event.sleep n] := by
  simp [effects, Sleep]

theorem effects_sleep_move (env : Env) (n : Int) (r c : String) (w : Node) :
    effects w (sendAction c (updateStatusRole env r (Sleep n w)))
      = [Event.sleep n, Event.setDBRole r, Event.send c] := by
  simp [effects, sendAction, updateStatusRole, SetDBRole, Sleep]

theorem self_move (env : Env) (r c : String) (w : Node) :
    (sendAction c (updateStatusRole env r w)).self = { w.self with DBRole := r } := by
  simp [sendAction, updateStatusRole, SetDBRole]

theorem self_sleep (n : Int) (w : Node) : (Sleep n w).self = w.self := by
  simp [Sleep]

theorem performAction_single (env : Env) (w : Node) (h : w.self.DBRole = "single") :
    performAction env w = .ok (performActionFromSingle env w w.self (peerOnEntry env w)) := by
  simp [performAction, Whoami, peerOnEntry, h]

theorem performAction_master (env : Env) (w : Node) (h : w.self.DBRole = "master") :
    performAction env w = .ok (performActionFromMaster env w w.self (peerOnEntry env w)) := by
  simp [performAction, Whoami, peerOnEntry, h]

theorem performAction_slave (env : Env) (w : Node) (h : w.self.DBRole = "slave") :
    performAction env w = .ok (performActionFromSlave env w w.self (peerOnEntry env w)) := by
  simp [performAction, Whoami, peerOnEntry, h]

theorem performAction_dead (env : Env) (w : Node)
    (h : w.self.DBRole = "dead(single)" ∨ w.self.DBRole = "dead(master)"
      ∨ w.self.DBRole = "dead(slave)") :
    performAction env w = performActionFromDead env w w.self (peerOnEntry env w) := by
  rcases h with h | h | h <;> simp [performAction, Whoami, peerOnEntry, h]

theorem emitted_self (w : Node) : emitted w w = [] := by
  simp [emitted, effects]

theorem emitted_move (env : Env) (r c : String) (w : Node) :
    emitted w (sendAction c (updateStatusRole env r w)) = [c] := by
  simp [emitted, effects_move]

theorem emitted_sleep (n : Int) (w : Node) : emitted w (Sleep n w) = [] := by
  simp [emitted, effects_sleep]

theorem emitted_sleep_move (env : Env) (n : Int) (r c : String) (w : Node) :
    emitted w (sendAction c (updateStatusRole env r (Sleep n w))) = [c] := by
  simp [emitted, effects_sleep_move]

theorem role_move (env : Env) (r c : String) (w : Node) :
    (sendAction c (updateStatusRole env r w)).self.DBRole = r := by
  simp [sendAction, updateStatusRole, SetDBRole]

theorem otherHasRole_none (r : String) : otherHasRole none r = false := rfl

theorem otherHasRole_some (o : Status) (r : String) :
    otherHasRole (some o) r = decide (o.DBRole = r) := rfl

theorem monitorKnows_foldl (other : String) (view : List Status) (acc : Bool) :
    view.foldl (fun known memb => if memb.CRole = other then true else known) acc
      = (acc || decide (∃ m ∈ view, m.CRole = other)) := by
  induction view generalizing acc with
  | nil => simp
  | cons m rest ih =>
    rw [List.foldl_cons, ih]
    by_cases hm : m.CRole = other
    · simp [hm]
    · simp [hm]

theorem monitorKnows_iff (other : String) (view : List Status) :
    monitorKnows other view = true ↔ ∃ m ∈ view, m.CRole = other := by
  unfold monitorKnows
  rw [monitorKnows_foldl]
  simp

/-! ## The transition engine -/

/-- C3: decision table from `master`.  (1) peer reachable on entry as `slave`: nothing
happens; (2) peer reachable on entry as `dead(slave)`: role `single`, command `single`;
(3) otherwise the handler calls `time.Sleep` with the duration the source computes,
`time.Duration(conf.DecisionTimeout) * time.Second` in `int64`, which is the
decision-timeout in seconds for every setting from 0 to 9223372036, and re-checks: peer
reachable, no change; else monitor reachable, role `single` and command `single`; else
role `dead(master)` and command `kill`.  In particular a peer unreachable on entry and after
the timeout with a reachable monitor gives role `single` and command `single`. -/
theorem master_table (env : Env) (w : Node) (hm : w.self.DBRole = "master") :
    ∃ w2, performAction env w = .ok w2 ∧
      (∀ o, peerOnEntry env w = some o → o.DBRole = "slave" → w2 = w) ∧
      (∀ o, peerOnEntry env w = some o → o.DBRole = "dead(slave)" →
        w2.self.DBRole = "single" ∧ emitted w w2 = ["single"]) ∧
      ((∀ o, peerOnEntry env w = some o → o.DBRole ≠ "slave" ∧ o.DBRole ≠ "dead(slave)") →
        Event.sleep (decisionTimeout env) ∈ effects w w2 ∧
        (0 ≤ env.DecisionTimeout → env.DecisionTimeout ≤ 9223372036 →
          decisionTimeout env = env.DecisionTimeout * 1000000000) ∧
        (peerAfterTimeout env w ≠ none →
          w2.self = w.self ∧ w2.lastKnownCluster = w.lastKnownCluster ∧ emitted w w2 = []) ∧
        (peerAfterTimeout env w = none → monitorAfterTimeout env w ≠ none →
          w2.self.DBRole = "single" ∧ emitted w w2 = ["single"]) ∧
        (peerAfterTimeout env w = none → monitorAfterTimeout env w = none →
          w2.self.DBRole = "dead(master)" ∧ emitted w w2 = ["kill"])) ∧
      (peerOnEntry env w = none → peerAfterTimeout env w = none →
        monitorAfterTimeout env w ≠ none →
          w2.self.DBRole = "single" ∧ emitted w w2 = ["single"]) := by
  have wait : (∀ o, peerOnEntry env w = some o →
        o.DBRole ≠ "slave" ∧ o.DBRole ≠ "dead(slave)") →
      performActionFromMaster env w w.self (peerOnEntry env w) =
        if peerAfterTimeout env w ≠ none then Sleep (decisionTimeout env) w
        else if monitorAfterTimeout env w ≠ none then
          sendAction "single" (updateStatusRole env "single" (Sleep (decisionTimeout env) w))
        else
          sendAction "kill"
            (updateStatusRole env "dead(master)" (Sleep (decisionTimeout env) w)) := by
    intro hother
    have h1 : otherHasRole (peerOnEntry env w) "slave" = false := by
      cases hp : peerOnEntry env w with
      | none => rfl
      | some o => simp [otherHasRole_some, (hother o hp).1]
    have h2 : otherHasRole (peerOnEntry env w) "dead(slave)" = false := by
      cases hp : peerOnEntry env w with
      | none => rfl
      | some o => simp [otherHasRole_some, (hother o hp).2]
    simp only [performActionFromMaster, h1, h2, peerAfterTimeout, monitorAfterTimeout]
    rfl
  refine ⟨_, performAction_master env w hm, ?_, ?_, ?_, ?_⟩
  · intro o ho hr
    simp [performActionFromMaster, ho, otherHasRole_some, hr]
  · intro o ho hr
    simp [performActionFromMaster, ho, otherHasRole_some, hr, role_move, emitted_move]
  · intro hother
    rw [wait hother]
    refine ⟨?_, decisionTimeout_in_range env, ?_, ?_, ?_⟩
    · split_ifs <;> simp [effects_sleep, effects_sleep_move]
    · intro hp
      rw [if_pos hp]
      exact ⟨self_sleep _ _, rfl, emitted_sleep _ _⟩
    · intro hp hmon
      rw [if_neg (not_not.mpr hp), if_pos hmon]
      exact ⟨role_move _ _ _ _, emitted_sleep_move _ _ _ _ _⟩
    · intro hp hmon
      rw [if_neg (not_not.mpr hp), if_neg (not_not.mpr hmon)]
      exact ⟨role_move _ _ _ _, emitted_sleep_move _ _ _ _ _⟩
  · intro hp0 hp hmon
    have hother : ∀ o, peerOnEntry env w = some o →
        o.DBRole ≠ "slave" ∧ o.DBRole ≠ "dead(slave)" := by
      intro o ho
      rw [hp0] at ho
      cases ho
    rw [wait hother, if_neg (not_not.mpr hp), if_pos hmon]
    exact ⟨role_move _ _ _ _, emitted_sleep_move _ _ _ _ _⟩

/-- C3 at a concrete input: the primary is `master`, the secondary is unreachable on
entry and after the timeout, the monitor stays reachable: after a sleep of 5 seconds,
role `single`, command `single`. -/
theorem master_table_witness :
    (mkNode (mkStatus "primary" "master" "running" 10)).self.DBRole = "master" ∧
    ∃ w2, performAction
        (mkEnv (mkNet none (some exMonitor) [] []) (mkNet none (some exMonitor) [] []))
        (mkNode (mkStatus "primary" "master" "running" 10)) = .ok w2 ∧
      w2.self.DBRole = "single" ∧
      emitted (mkNode (mkStatus "primary" "master" "running" 10)) w2 = ["single"] ∧
      Event.sleep 5000000000 ∈ effects (mkNode (mkStatus "primary" "master" "running" 10)) w2 := by
  obtain ⟨w2, h, _, _, h3, h4⟩ := master_table
    (mkEnv (mkNet none (some exMonitor) [] []) (mkNet none (some exMonitor) [] []))
    (mkNode (mkStatus "primary" "master" "running" 10)) rfl
  have hs := h4 rfl rfl (by decide)
  exact ⟨rfl, w2, h, hs.1, hs.2, (h3 (fun o ho => by cases ho)).1⟩

theorem performActionFromSlave_cases (env : Env) (w : Node) (self : Status)
    (other : Option Status) :
    performActionFromSlave env w self other = w ∨
    performActionFromSlave env w self other
      = sendAction "kill" (updateStatusRole env "dead(slave)" w) ∨
    (self.State = "(slave)running" ∧ performActionFromSlave env w self other
      = sendAction "single" (updateStatusRole env "single" w)) ∨
    performActionFromSlave env w self other = Sleep (decisionTimeout env) w ∨
    performActionFromSlave env w self other
      = sendAction "kill" (updateStatusRole env "dead(slave)" (Sleep (decisionTimeout env) w)) ∨
    (self.State = "(slave)running" ∧ performActionFromSlave env w self other
      = sendAction "single" (updateStatusRole env "single" (Sleep (decisionTimeout env) w))) := by
  simp only [performActionFromSlave]
  split_ifs <;> simp_all

/-- C2: a slave never promotes itself unless it had finished syncing.  From `slave`,
whatever the peer answers on entry and after the decision-timeout and whatever the monitor
answers and reports, if the run ends with role `single` or sent the command `single` then
the state of self was `(slave)running`; and the run never sets the role to `master`. -/
theorem slave_promotes_only_when_synced (env : Env) (w : Node)
    (hs : w.self.DBRole = "slave") :
    ∃ w2, performAction env w = .ok w2 ∧
      ((w2.self.DBRole = "single" ∨ "single" ∈ emitted w w2) →
        w.self.State = "(slave)running") ∧
      w2.self.DBRole ≠ "master" ∧
      Event.setDBRole "master" ∉ effects w w2 := by
  refine ⟨_, performAction_slave env w hs, ?_⟩
  rcases performActionFromSlave_cases env w w.self (peerOnEntry env w) with
    h | h | ⟨hst, h⟩ | h | h | ⟨hst, h⟩ <;> rw [h]
  · simp [emitted_self, effects_self, hs]
  · simp [role_move, emitted_move, effects_move]
  · simp [role_move, emitted_move, effects_move, hst]
  · simp [self_sleep, emitted_sleep, effects_sleep, hs]
  · simp [role_move, emitted_sleep_move, effects_sleep_move]
  · simp [role_move, emitted_sleep_move, effects_sleep_move, hst]

/-- C2 at a concrete input: an unsynced slave whose master is reported `dead(master)`
ends as `dead(slave)`, not as `single`. -/
theorem slave_promotes_only_when_synced_witness :
    (mkNode (mkStatus "secondary" "slave" "(slave)syncing" 10)).self.DBRole = "slave" ∧
    ∃ w2, performAction
        (mkEnv (mkNet (some (mkStatus "primary" "dead(master)" "down" 12)) (some exMonitor)
          [] []) (mkNet none none [] []))
        (mkNode (mkStatus "secondary" "slave" "(slave)syncing" 10)) = .ok w2 ∧
      w2.self.DBRole ≠ "master" := by
  obtain ⟨w2, h, _, h2, _⟩ := slave_promotes_only_when_synced
    (mkEnv (mkNet (some (mkStatus "primary" "dead(master)" "down" 12)) (some exMonitor)
      [] []) (mkNet none none [] []))
    (mkNode (mkStatus "secondary" "slave" "(slave)syncing" 10)) rfl
  exact ⟨rfl, w2, h, h2⟩

theorem otherCRole_primary (self : Status) (h : self.CRole = "primary") :
    otherCRole self = "secondary" := by
  simp [otherCRole, h]

theorem otherCRole_secondary (self : Status) (h : self.CRole = "secondary") :
    otherCRole self = "primary" := by
  simp [otherCRole, h]

theorem performActionFromSlave_wait (env : Env) (w : Node)
    (hentry : ∀ o, peerOnEntry env w = some o →
      o.DBRole ≠ "master" ∧ o.DBRole ≠ "dead(master)") :
    performActionFromSlave env w w.self (peerOnEntry env w) =
      if peerAfterTimeout env w ≠ none then Sleep (decisionTimeout env) w
      else if monitorAfterTimeout env w ≠ none then
        if w.self.State ≠ "(slave)running" then
          sendAction "kill" (updateStatusRole env "dead(slave)" (Sleep (decisionTimeout env) w))
        else if monitorKnows (otherCRole w.self) (monitorViewAfterTimeout env w) then
          sendAction "kill" (updateStatusRole env "dead(slave)" (Sleep (decisionTimeout env) w))
        else
          sendAction "single" (updateStatusRole env "single" (Sleep (decisionTimeout env) w))
      else
        sendAction "kill" (updateStatusRole env "dead(slave)" (Sleep (decisionTimeout env) w)) := by
  have h1 : otherHasRole (peerOnEntry env w) "master" = false := by
    cases hp : peerOnEntry env w with
    | none => rfl
    | some o => simp [otherHasRole_some, (hentry o hp).1]
  have h2 : otherHasRole (peerOnEntry env w) "dead(master)" = false := by
    cases hp : peerOnEntry env w with
    | none => rfl
    | some o => simp [otherHasRole_some, (hentry o hp).2]
  simp only [performActionFromSlave, h1, h2, peerAfterTimeout, monitorAfterTimeout,
    monitorViewAfterTimeout]
  rfl

/-- C4: slave path after the decision-timeout.  When the peer on entry is neither a
reachable `master` nor a reachable `dead(master)`, the handler calls `time.Sleep` with
the duration the source computes, `time.Duration(conf.DecisionTimeout) * time.Second` in
`int64`, which is the decision-timeout in seconds for every setting from 0 to 9223372036,
and re-checks: peer reachable, nothing changes; monitor unreachable, role
`dead(slave)` and command `kill`; monitor reachable, role `dead(slave)` and command `kill`
when self is not `(slave)running` or when the monitor still lists the peer identity
(secondary for a primary self, primary for a secondary self); role `single` and command
`single` when self is synced and the monitor does not list the peer, and only then. -/
theorem slave_after_timeout (env : Env) (w : Node) (hs : w.self.DBRole = "slave")
    (hentry : ∀ o, peerOnEntry env w = some o →
      o.DBRole ≠ "master" ∧ o.DBRole ≠ "dead(master)") :
    ∃ w2, performAction env w = .ok w2 ∧
      Event.sleep (decisionTimeout env) ∈ effects w w2 ∧
      (0 ≤ env.DecisionTimeout → env.DecisionTimeout ≤ 9223372036 →
        decisionTimeout env = env.DecisionTimeout * 1000000000) ∧
      (peerAfterTimeout env w ≠ none →
        w2.self = w.self ∧ w2.lastKnownCluster = w.lastKnownCluster ∧ emitted w w2 = []) ∧
      (peerAfterTimeout env w = none → monitorAfterTimeout env w = none →
        w2.self.DBRole = "dead(slave)" ∧ emitted w w2 = ["kill"]) ∧
      (peerAfterTimeout env w = none → monitorAfterTimeout env w ≠ none →
        (w.self.State ≠ "(slave)running" →
          w2.self.DBRole = "dead(slave)" ∧ emitted w w2 = ["kill"]) ∧
        (w.self.CRole = "primary" →
          (∃ m ∈ monitorViewAfterTimeout env w, m.CRole = "secondary") →
          w2.self.DBRole = "dead(slave)" ∧ emitted w w2 = ["kill"]) ∧
        (w.self.CRole = "secondary" →
          (∃ m ∈ monitorViewAfterTimeout env w, m.CRole = "primary") →
          w2.self.DBRole = "dead(slave)" ∧ emitted w w2 = ["kill"]) ∧
        (w.self.State = "(slave)running" → w.self.CRole = "primary" →
          (¬ ∃ m ∈ monitorViewAfterTimeout env w, m.CRole = "secondary") →
          w2.self.DBRole = "single" ∧ emitted w w2 = ["single"]) ∧
        (w.self.State = "(slave)running" → w.self.CRole = "secondary" →
          (¬ ∃ m ∈ monitorViewAfterTimeout env w, m.CRole = "primary") →
          w2.self.DBRole = "single" ∧ emitted w w2 = ["single"])) ∧
      ((w2.self.DBRole = "single" ∨ "single" ∈ emitted w w2) →
        peerAfterTimeout env w = none ∧ monitorAfterTimeout env w ≠ none ∧
        w.self.State = "(slave)running" ∧
        (w.self.CRole = "primary" →
          ¬ ∃ m ∈ monitorViewAfterTimeout env w, m.CRole = "secondary") ∧
        (w.self.CRole = "secondary" →
          ¬ ∃ m ∈ monitorViewAfterTimeout env w, m.CRole = "primary")) := by
  refine ⟨_, performAction_slave env w hs, ?_⟩
  rw [performActionFromSlave_wait env w hentry]
  have dead : ∀ x : Node,
      (sendAction "kill" (updateStatusRole env "dead(slave)" x)).self.DBRole = "dead(slave)" :=
    fun x => role_move env _ _ x
  have single : ∀ x : Node,
      (sendAction "single" (updateStatusRole env "single" x)).self.DBRole = "single" :=
    fun x => role_move env _ _ x
  refine ⟨?_, decisionTimeout_in_range env, ?_, ?_, ?_, ?_⟩
  · split_ifs <;> simp [effects_sleep, effects_sleep_move]
  · intro hp
    rw [if_pos hp]
    exact ⟨self_sleep _ _, rfl, emitted_sleep _ _⟩
  · intro hp hmon
    rw [if_neg (not_not.mpr hp), if_neg (not_not.mpr hmon)]
    exact ⟨dead _, emitted_sleep_move _ _ _ _ _⟩
  · intro hp hmon
    rw [if_neg (not_not.mpr hp), if_pos hmon]
    refine ⟨?_, ?_, ?_, ?_, ?_⟩
    · intro hst
      rw [if_pos hst]
      exact ⟨dead _, emitted_sleep_move _ _ _ _ _⟩
    · intro hc hk
      have hk2 : monitorKnows (otherCRole w.self) (monitorViewAfterTimeout env w) = true := by
        rw [otherCRole_primary _ hc]
        exact (monitorKnows_iff _ _).mpr hk
      by_cases hst : w.self.State ≠ "(slave)running"
      · rw [if_pos hst]
        exact ⟨dead _, emitted_sleep_move _ _ _ _ _⟩
      · rw [if_neg hst, if_pos hk2]
        exact ⟨dead _, emitted_sleep_move _ _ _ _ _⟩
    · intro hc hk
      have hk2 : monitorKnows (otherCRole w.self) (monitorViewAfterTimeout env w) = true := by
        rw [otherCRole_secondary _ hc]
        exact (monitorKnows_iff _ _).mpr hk
      by_cases hst : w.self.State ≠ "(slave)running"
      · rw [if_pos hst]
        exact ⟨dead _, emitted_sleep_move _ _ _ _ _⟩
      · rw [if_neg hst, if_pos hk2]
        exact ⟨dead _, emitted_sleep_move _ _ _ _ _⟩
    · intro hst hc hk
      have hk2 : ¬ monitorKnows (otherCRole w.self) (monitorViewAfterTimeout env w) = true := by
        rw [otherCRole_primary _ hc]
        exact fun h => hk ((monitorKnows_iff _ _).mp h)
      rw [if_neg (not_not.mpr hst), if_neg hk2]
      exact ⟨single _, emitted_sleep_move _ _ _ _ _⟩
    · intro hst hc hk
      have hk2 : ¬ monitorKnows (otherCRole w.self) (monitorViewAfterTimeout env w) = true := by
        rw [otherCRole_secondary _ hc]
        exact fun h => hk ((monitorKnows_iff _ _).mp h)
      rw [if_neg (not_not.mpr hst), if_neg hk2]
      exact ⟨single _, emitted_sleep_move _ _ _ _ _⟩
  · by_cases hp : peerAfterTimeout env w ≠ none
    · rw [if_pos hp]
      simp [self_sleep, emitted_sleep, hs]
    · rw [if_neg hp]
      by_cases hmon : monitorAfterTimeout env w ≠ none
      · rw [if_pos hmon]
        by_cases hst : w.self.State ≠ "(slave)running"
        · rw [if_pos hst]
          simp [dead, emitted_sleep_move]
        · rw [if_neg hst]
          by_cases hk : monitorKnows (otherCRole w.self) (monitorViewAfterTimeout env w) = true
          · rw [if_pos hk]
            simp [dead, emitted_sleep_move]
          · rw [if_neg hk]
            intro _
            refine ⟨not_not.mp hp, hmon, not_not.mp hst, ?_, ?_⟩
            · intro hc hex
              rw [otherCRole_primary _ hc] at hk
              exact hk ((monitorKnows_iff _ _).mpr hex)
            · intro hc hex
              rw [otherCRole_secondary _ hc] at hk
              exact hk ((monitorKnows_iff _ _).mpr hex)
      · rw [if_neg hmon]
        simp [dead, emitted_sleep_move]

/-- C4 at a concrete input: a synced secondary slave loses the primary, the monitor stays
reachable and no longer lists the primary: after a sleep of 5 seconds, role `single`,
command `single`. -/
theorem slave_after_timeout_witness :
    (mkNode (mkStatus "secondary" "slave" "(slave)running" 10)).self.DBRole = "slave" ∧
    (∀ o, peerOnEntry
        (mkEnv (mkNet none (some exMonitor) [] []) (mkNet none (some exMonitor) [] [exMonitor]))
        (mkNode (mkStatus "secondary" "slave" "(slave)running" 10)) = some o →
      o.DBRole ≠ "master" ∧ o.DBRole ≠ "dead(master)") ∧
    ∃ w2, performAction
        (mkEnv (mkNet none (some exMonitor) [] []) (mkNet none (some exMonitor) [] [exMonitor]))
        (mkNode (mkStatus "secondary" "slave" "(slave)running" 10)) = .ok w2 ∧
      w2.self.DBRole = "single" ∧
      emitted (mkNode (mkStatus "secondary" "slave" "(slave)running" 10)) w2 = ["single"] ∧
      Event.sleep 5000000000
        ∈ effects (mkNode (mkStatus "secondary" "slave" "(slave)running" 10)) w2 := by
  have hentry : ∀ o, peerOnEntry
        (mkEnv (mkNet none (some exMonitor) [] []) (mkNet none (some exMonitor) [] [exMonitor]))
        (mkNode (mkStatus "secondary" "slave" "(slave)running" 10)) = some o →
      o.DBRole ≠ "master" ∧ o.DBRole ≠ "dead(master)" := by
    intro o ho
    cases ho
  obtain ⟨w2, h, hsleep, _, _, _, h4, _⟩ := slave_after_timeout
    (mkEnv (mkNet none (some exMonitor) [] []) (mkNet none (some exMonitor) [] [exMonitor]))
    (mkNode (mkStatus "secondary" "slave" "(slave)running" 10)) rfl hentry
  have hs := (h4 rfl (by decide)).2.2.2.2 rfl rfl (by decide)
  exact ⟨rfl, hentry, w2, h, hs.1, hs.2, hsleep⟩

/-- C5: slave path with a reachable peer.  Peer `master` on entry: nothing happens.  Peer
`dead(master)` on entry: an unsynced self ends as `dead(slave)` with the single command
`kill`, a synced self ends as `single` with the single command `single`.  In both
`dead(master)` cases the result is the same in any other environment `env2` in which the
peer is also reachable as `dead(master)`, whatever the monitor answers there. -/
theorem slave_peer_reachable (env env2 : Env) (w : Node) (o o2 : Status)
    (hs : w.self.DBRole = "slave")
    (hp : peerOnEntry env w = some o) (hp2 : peerOnEntry env2 w = some o2) :
    ∃ w2 w3, performAction env w = .ok w2 ∧ performAction env2 w = .ok w3 ∧
      (o.DBRole = "master" → w2 = w) ∧
      (o.DBRole = "dead(master)" → w.self.State ≠ "(slave)running" →
        w2.self.DBRole = "dead(slave)" ∧ emitted w w2 = ["kill"]) ∧
      (o.DBRole = "dead(master)" → w.self.State = "(slave)running" →
        w2.self.DBRole = "single" ∧ emitted w w2 = ["single"]) ∧
      (o.DBRole = "dead(master)" → o2.DBRole = "dead(master)" →
        w3.self = w2.self ∧ effects w w3 = effects w w2) := by
  refine ⟨_, _, performAction_slave env w hs, performAction_slave env2 w hs, ?_, ?_, ?_, ?_⟩
  · intro hr
    simp [performActionFromSlave, hp, otherHasRole_some, hr]
  · intro hr hst
    simp [performActionFromSlave, hp, otherHasRole_some, hr, hst, role_move, emitted_move]
  · intro hr hst
    simp [performActionFromSlave, hp, otherHasRole_some, hr, hst, role_move, emitted_move]
  · intro hr hr2
    by_cases hst : w.self.State = "(slave)running"
    · simp [performActionFromSlave, hp, hp2, otherHasRole_some, hr, hr2, hst, self_move,
        effects_move]
    · simp [performActionFromSlave, hp, hp2, otherHasRole_some, hr, hr2, hst, self_move,
        effects_move]

/-- C5 at a concrete input: an unsynced slave whose peer shows `dead(master)` ends as
`dead(slave)` with command `kill`, with the monitor reachable or not. -/
theorem slave_peer_reachable_witness :
    (mkNode (mkStatus "secondary" "slave" "(slave)syncing" 10)).self.DBRole = "slave" ∧
    ∃ w2 w3, performAction
        (mkEnv (mkNet (some (mkStatus "primary" "dead(master)" "down" 12)) (some exMonitor)
          [] []) (mkNet none none [] []))
        (mkNode (mkStatus "secondary" "slave" "(slave)syncing" 10)) = .ok w2 ∧
      performAction
        (mkEnv (mkNet (some (mkStatus "primary" "dead(master)" "down" 12)) none [] [])
          (mkNet none none [] []))
        (mkNode (mkStatus "secondary" "slave" "(slave)syncing" 10)) = .ok w3 ∧
      w2.self.DBRole = "dead(slave)" ∧
      emitted (mkNode (mkStatus "secondary" "slave" "(slave)syncing" 10)) w2 = ["kill"] ∧
      w3.self = w2.self := by
  obtain ⟨w2, w3, h, h3, _, hk, _, hsame⟩ := slave_peer_reachable
    (mkEnv (mkNet (some (mkStatus "primary" "dead(master)" "down" 12)) (some exMonitor)
      [] []) (mkNet none none [] []))
    (mkEnv (mkNet (some (mkStatus "primary" "dead(master)" "down" 12)) none [] [])
      (mkNet none none [] []))
    (mkNode (mkStatus "secondary" "slave" "(slave)syncing" 10))
    (mkStatus "primary" "dead(master)" "down" 12)
    (mkStatus "primary" "dead(master)" "down" 12) rfl rfl rfl
  exact ⟨rfl, w2, w3, h, h3, (hk rfl (by decide)).1, (hk rfl (by decide)).2,
    (hsame rfl rfl).1⟩

/-- C6: decision table from `single`.  Peer and monitor both unreachable: role
`dead(single)`, command `kill`.  Both reachable: role `master`, command `master`.  Exactly
one of them reachable: nothing is emitted and nothing changes. -/
theorem single_table (env : Env) (w : Node) (hs : w.self.DBRole = "single") :
    ∃ w2, performAction env w = .ok w2 ∧
      (peerOnEntry env w = none → monitorOnEntry env w = none →
        w2.self.DBRole = "dead(single)" ∧ emitted w w2 = ["kill"]) ∧
      (peerOnEntry env w ≠ none → monitorOnEntry env w ≠ none →
        w2.self.DBRole = "master" ∧ emitted w w2 = ["master"]) ∧
      (peerOnEntry env w = none → monitorOnEntry env w ≠ none →
        w2 = w ∧ emitted w w2 = []) ∧
      (peerOnEntry env w ≠ none → monitorOnEntry env w = none →
        w2 = w ∧ emitted w w2 = []) := by
  refine ⟨_, performAction_single env w hs, ?_, ?_, ?_, ?_⟩
  · intro hp hmon
    have hmon2 : Whois env w "monitor" = none := hmon
    simp [performActionFromSingle, hp, hmon2, role_move, emitted_move]
  · intro hp hmon
    have hmon2 : Whois env w "monitor" ≠ none := hmon
    simp [performActionFromSingle, hp, hmon2, role_move, emitted_move]
  · intro hp hmon
    have hmon2 : Whois env w "monitor" ≠ none := hmon
    simp [performActionFromSingle, hp, hmon2, emitted_self]
  · intro hp hmon
    have hmon2 : Whois env w "monitor" = none := hmon
    simp [performActionFromSingle, hp, hmon2, emitted_self]

/-- C6 at a concrete input: a `single` node that sees the peer and the monitor again
becomes `master`. -/
theorem single_table_witness :
    (mkNode (mkStatus "secondary" "single" "running" 10)).self.DBRole = "single" ∧
    ∃ w2, performAction
        (mkEnv (mkNet (some (mkStatus "primary" "dead(master)" "down" 12)) (some exMonitor)
          [] []) (mkNet none none [] []))
        (mkNode (mkStatus "secondary" "single" "running" 10)) = .ok w2 ∧
      w2.self.DBRole = "master" ∧
      emitted (mkNode (mkStatus "secondary" "single" "running" 10)) w2 = ["master"] := by
  obtain ⟨w2, h, _, hm, _, _⟩ := single_table
    (mkEnv (mkNet (some (mkStatus "primary" "dead(master)" "down" 12)) (some exMonitor)
      [] []) (mkNet none none [] []))
    (mkNode (mkStatus "secondary" "single" "running" 10)) rfl
  exact ⟨rfl, w2, h, hm (by decide) (by decide)⟩

theorem startType_ok_of_peer (env : Env) (w : Node) (d : String) (o : Status)
    (hpeer : Whoisnot env w w.self.CRole = some o)
    (hrole : w.self.DBRole = "dead(master)" ∨ w.self.DBRole = "dead(slave)") :
    ∃ r, startType env w d = .ok r := by
  rcases hrole with h | h
  · simp only [startType, Whoami, h, hpeer]
    split_ifs <;> simp_all
  · simp [startType, Whoami, h]

/-- C7: revival from a dead state.  Unless the peer is reachable and the fresh snapshot
has exactly 3 members, nothing is emitted and nothing changes.  When both hold,
`dead(single)` becomes `master` with command `master`, `dead(master)` becomes
`r = startType "master"` with command `r`, and `dead(slave)` becomes
`r = startType "slave"` with command `r`. -/
theorem dead_revival (env : Env) (w : Node)
    (hd : w.self.DBRole = "dead(single)" ∨ w.self.DBRole = "dead(master)"
      ∨ w.self.DBRole = "dead(slave)") :
    (¬ (peerOnEntry env w ≠ none ∧ (Cluster env w).length = 3) →
      ∃ w2, performAction env w = .ok w2 ∧ w2 = w ∧ emitted w w2 = []) ∧
    (peerOnEntry env w ≠ none → (Cluster env w).length = 3 →
      (w.self.DBRole = "dead(single)" →
        ∃ w2, performAction env w = .ok w2 ∧
          w2.self.DBRole = "master" ∧ emitted w w2 = ["master"]) ∧
      (w.self.DBRole = "dead(master)" →
        ∃ r w2, startType env w "master" = .ok r ∧ performAction env w = .ok w2 ∧
          w2.self.DBRole = r ∧ emitted w w2 = [r]) ∧
      (w.self.DBRole = "dead(slave)" →
        ∃ r w2, startType env w "slave" = .ok r ∧ performAction env w = .ok w2 ∧
          w2.self.DBRole = r ∧ emitted w w2 = [r])) := by
  rw [performAction_dead env w hd]
  refine ⟨?_, ?_⟩
  · intro hn
    refine ⟨w, ?_, rfl, emitted_self w⟩
    unfold performActionFromDead
    rw [if_neg hn]
  · intro hp hc
    have hpc : peerOnEntry env w ≠ none ∧ (Cluster env w).length = 3 := ⟨hp, hc⟩
    obtain ⟨o, ho⟩ := Option.ne_none_iff_exists'.mp hp
    refine ⟨?_, ?_, ?_⟩
    · intro h
      refine ⟨_, ?_, role_move env "master" "master" w, emitted_move env "master" "master" w⟩
      unfold performActionFromDead
      rw [if_pos hpc, if_pos h]
    · intro h
      obtain ⟨r, hr⟩ := startType_ok_of_peer env w "master" o ho (Or.inl h)
      refine ⟨r, _, hr, ?_, role_move env r r w, emitted_move env r r w⟩
      unfold performActionFromDead
      rw [if_pos hpc, if_neg (by rw [h]; decide), if_pos h, hr]
    · intro h
      obtain ⟨r, hr⟩ := startType_ok_of_peer env w "slave" o ho (Or.inr h)
      refine ⟨r, _, hr, ?_, role_move env r r w, emitted_move env r r w⟩
      unfold performActionFromDead
      rw [if_pos hpc, if_neg (by rw [h]; decide), if_neg (by rw [h]; decide), if_pos h, hr]

/-- C7 at a concrete input: a `dead(single)` node that sees the peer again in a snapshot
of size 3 becomes `master` and sends `master`. -/
theorem dead_revival_witness :
    (mkNode (mkStatus "primary" "dead(single)" "down" 10)).self.DBRole = "dead(single)" ∧
    ∃ w2, performAction
        (mkEnv (mkNet (some (mkStatus "secondary" "dead(slave)" "down" 12)) (some exMonitor)
          (exFull (mkStatus "primary" "dead(single)" "down" 10)
            (mkStatus "secondary" "dead(slave)" "down" 12)) []) (mkNet none none [] []))
        (mkNode (mkStatus "primary" "dead(single)" "down" 10)) = .ok w2 ∧
      w2.self.DBRole = "master" ∧
      emitted (mkNode (mkStatus "primary" "dead(single)" "down" 10)) w2 = ["master"] :=
  ⟨rfl, ((dead_revival
    (mkEnv (mkNet (some (mkStatus "secondary" "dead(slave)" "down" 12)) (some exMonitor)
      (exFull (mkStatus "primary" "dead(single)" "down" 10)
        (mkStatus "secondary" "dead(slave)" "down" 12)) []) (mkNet none none [] []))
    (mkNode (mkStatus "primary" "dead(single)" "down" 10)) (Or.inl rfl)).2
      (by decide) rfl).1 rfl⟩

/-! ## Change detection -/

theorem memberChanged_iff (env : Env) (w : Node) (l : List Status) :
    memberChanged env w l = true ↔
      (∃ m ∈ l, Whois env w m.CRole = none) ∨
      (∃ m ∈ l, ∃ r, Whois env w m.CRole = some r ∧ r.DBRole ≠ m.DBRole) := by
  induction l with
  | nil => simp [memberChanged]
  | cons m rest ih =>
    unfold memberChanged
    cases hw : Whois env w m.CRole with
    | none =>
      simp only [true_iff]
      exact Or.inl ⟨m, List.mem_cons_self _ _, hw⟩
    | some remote =>
      by_cases hr : m.DBRole = remote.DBRole
      · simp only [ne_eq, hr, not_true_eq_false, if_false, ih, List.mem_cons]
        constructor
        · rintro (⟨x, hx, hx2⟩ | ⟨x, hx, r, hx2, hx3⟩)
          · exact Or.inl ⟨x, Or.inr hx, hx2⟩
          · exact Or.inr ⟨x, Or.inr hx, r, hx2, hx3⟩
        · rintro (⟨x, hx | hx, hx2⟩ | ⟨x, hx | hx, r, hx2, hx3⟩)
          · rw [hx, hw] at hx2
            cases hx2
          · exact Or.inl ⟨x, hx, hx2⟩
          · subst hx
            rw [hw] at hx2
            cases hx2
            exact absurd hr.symm hx3
          · exact Or.inr ⟨x, hx, r, hx2, hx3⟩
      · simp only [ne_eq, hr, not_false_eq_true, if_true, true_iff]
        exact Or.inr ⟨m, List.mem_cons_self _ _, remote, hw, fun h => hr h.symm⟩

theorem clusterChanges_flag_iff (env : Env) (w : Node) :
    (clusterChanges env w).1 = true ↔
      ((Cluster env w).length ≠ w.lastKnownCluster.length ∨
        (∃ m ∈ w.lastKnownCluster, Whois env w m.CRole = none) ∨
        (∃ m ∈ w.lastKnownCluster, ∃ r,
          Whois env w m.CRole = some r ∧ r.DBRole ≠ m.DBRole)) := by
  unfold clusterChanges
  by_cases hlen : w.lastKnownCluster.length ≠ (Cluster env w).length
  · rw [if_pos hlen]
    exact ⟨fun _ => Or.inl (fun h => hlen h.symm), fun _ => rfl⟩
  · have hlen2 : ¬ (Cluster env w).length ≠ w.lastKnownCluster.length :=
      fun h => hlen (fun h2 => h h2.symm)
    rw [if_neg hlen]
    by_cases hm : memberChanged env w w.lastKnownCluster = true
    · rw [if_pos hm]
      exact ⟨fun _ => Or.inr ((memberChanged_iff env w _).mp hm), fun _ => rfl⟩
    · rw [if_neg hm]
      constructor
      · intro h
        exact absurd h (by simp)
      · rintro (h | h)
        · exact absurd h hlen2
        · exact absurd ((memberChanged_iff env w _).mpr h) hm

theorem clusterChanges_state_of_true (env : Env) (w : Node)
    (h : (clusterChanges env w).1 = true) :
    (clusterChanges env w).2 = { w with lastKnownCluster := Cluster env w } := by
  revert h
  unfold clusterChanges
  by_cases hlen : w.lastKnownCluster.length ≠ (Cluster env w).length
  · simp [hlen]
  · by_cases hm : memberChanged env w w.lastKnownCluster = true
    · simp [hlen, hm]
    · simp [hlen, hm]

theorem clusterChanges_state_of_false (env : Env) (w : Node)
    (h : (clusterChanges env w).1 = false) : (clusterChanges env w).2 = w := by
  revert h
  unfold clusterChanges
  by_cases hlen : w.lastKnownCluster.length ≠ (Cluster env w).length
  · simp [hlen]
  · by_cases hm : memberChanged env w w.lastKnownCluster = true
    · simp [hlen, hm]
    · simp [hlen, hm]

/-- C8: `clusterChanges` returns true if and only if (a) the fresh snapshot and the cached
Last-Known-Cluster differ in length, or (b) some cached member fails to resolve by
identity, or (c) some cached member resolves to a record with another `DBRole`.  When it
returns true the cache afterwards is the fresh snapshot and nothing else changed; when it
returns false the state is unchanged.  When the lengths agree and every cached member
resolves to a record with the cached `DBRole`, it returns false whatever the other fields
of the resolved records are. -/
theorem clusterChanges_iff (env : Env) (w : Node) :
    ((clusterChanges env w).1 = true ↔
      ((Cluster env w).length ≠ w.lastKnownCluster.length ∨
        (∃ m ∈ w.lastKnownCluster, Whois env w m.CRole = none) ∨
        (∃ m ∈ w.lastKnownCluster, ∃ r,
          Whois env w m.CRole = some r ∧ r.DBRole ≠ m.DBRole))) ∧
    ((clusterChanges env w).1 = true →
      (clusterChanges env w).2 = { w with lastKnownCluster := Cluster env w }) ∧
    ((clusterChanges env w).1 = false → (clusterChanges env w).2 = w) ∧
    ((Cluster env w).length = w.lastKnownCluster.length →
      (∀ m ∈ w.lastKnownCluster, ∃ r,
        Whois env w m.CRole = some r ∧ r.DBRole = m.DBRole) →
      (clusterChanges env w).1 = false) := by
  refine ⟨clusterChanges_flag_iff env w, clusterChanges_state_of_true env w,
    clusterChanges_state_of_false env w, ?_⟩
  intro hlen hall
  cases hc : (clusterChanges env w).1 with
  | false => rfl
  | true =>
    rcases (clusterChanges_flag_iff env w).mp hc with h | ⟨m, hm, h⟩ | ⟨m, hm, r, h, hne⟩
    · exact absurd hlen h
    · obtain ⟨r, hr, _⟩ := hall m hm
      rw [hr] at h
      cases h
    · obtain ⟨r2, hr, heq⟩ := hall m hm
      rw [hr] at h
      cases h
      exact absurd heq hne

/-! ## Advice handling in the event loop -/

/-- C9: advice handling.  Advice `demote` while self is `master` sets the role to
`dead(master)` and sends exactly `kill`; the result does not depend on the cached
Last-Known-Cluster, so it is the same whether change detection would have answered true
or false.  For every other combination of advice and role, `performAction` runs (on the
state left by `clusterChanges`) exactly when `clusterChanges` returns true, and otherwise
the state is unchanged and nothing is emitted. -/
theorem advice_handling (env : Env) (adv : String) (w : Node) :
    (adv = "demote" → w.self.DBRole = "master" →
      ∃ w2, onAdvice env adv w = .ok w2 ∧
        w2.self.DBRole = "dead(master)" ∧ emitted w w2 = ["kill"] ∧
        effects w w2 = [Event.setDBRole "dead(master)", Event.send "kill"] ∧
        ∀ l, onAdvice env adv { w with lastKnownCluster := l } = .ok w2) ∧
    (¬ (adv = "demote" ∧ w.self.DBRole = "master") →
      ((clusterChanges env w).1 = true →
        onAdvice env adv w = performAction env (clusterChanges env w).2) ∧
      ((clusterChanges env w).1 = false →
        onAdvice env adv w = .ok w ∧ emitted w w = [])) := by
  refine ⟨?_, ?_⟩
  · intro ha hm
    refine ⟨sendAction "kill" (updateStatusRole env "dead(master)" w), ?_,
      role_move _ _ _ _, emitted_move _ _ _ _, effects_move _ _ _ _, ?_⟩
    · simp [onAdvice, Whoami, ha, hm]
    · intro l
      simp [onAdvice, Whoami, ha, hm, sendAction, updateStatusRole, SetDBRole, Cluster]
  · intro hn
    refine ⟨?_, ?_⟩
    · intro hc
      simp only [onAdvice, Whoami, hn, if_false, hc, if_true]
    · intro hc
      have h2 : (clusterChanges env w).2 = w := clusterChanges_state_of_false env w hc
      refine ⟨?_, emitted_self w⟩
      simp only [onAdvice, Whoami, hn, if_false, hc, h2]
      rfl

/-- C8 at a concrete input: the fresh records differ from the cached ones in `State` and
`UpdatedAt` only, and `clusterChanges` returns false. -/
theorem clusterChanges_iff_witness :
    exCached ≠ exFresh ∧
    (clusterChanges (mkEnv (netOf exFresh) (netOf exFresh)) exMasterNode).1 = false := by
  refine ⟨by decide, (clusterChanges_iff (mkEnv (netOf exFresh) (netOf exFresh))
    exMasterNode).2.2.2 rfl ?_⟩
  intro m hm
  simp only [exMasterNode, exCached, exFull, List.mem_cons, List.mem_singleton,
    List.not_mem_nil, or_false] at hm
  rcases hm with rfl | rfl | rfl
  · exact ⟨mkStatus "primary" "master" "running" 20, rfl, rfl⟩
  · exact ⟨mkStatus "secondary" "slave" "(slave)running" 21, rfl, rfl⟩
  · exact ⟨exMonitor, rfl, rfl⟩

/-- C9 at a concrete input: `demote` reaches a `master` once with a cache for which change
detection answers false and once with an empty cache for which it answers true; both
runs end in the same state, role `dead(master)`, command `kill`. -/
theorem advice_handling_witness :
    (clusterChanges (mkEnv (netOf exFresh) (netOf exFresh)) exMasterNode).1 = false ∧
    (clusterChanges (mkEnv (netOf exFresh) (netOf exFresh))
      { exMasterNode with lastKnownCluster := [] }).1 = true ∧
    ∃ w2, onAdvice (mkEnv (netOf exFresh) (netOf exFresh)) "demote" exMasterNode = .ok w2 ∧
      onAdvice (mkEnv (netOf exFresh) (netOf exFresh)) "demote"
        { exMasterNode with lastKnownCluster := [] } = .ok w2 ∧
      w2.self.DBRole = "dead(master)" ∧ emitted exMasterNode w2 = ["kill"] := by
  obtain ⟨w2, h1, h2, h3, _, h5⟩ :=
    (advice_handling (mkEnv (netOf exFresh) (netOf exFresh)) "demote" exMasterNode).1 rfl rfl
  exact ⟨by decide, by decide, w2, h1, h5 [], h2, h3⟩

/-! ## Startup role resolution: timestamps and aborts -/

theorem startType_master_eq (env : Env) (w : Node) (d : String) (o : Status)
    (hrole : w.self.DBRole = "master" ∨ w.self.DBRole = "dead(master)")
    (hpeer : Whoisnot env w w.self.CRole = some o) :
    startType env w d =
      if o.DBRole = "single" ∨ o.DBRole = "dead(single)" then .ok "slave"
      else if o.DBRole = "master" ∧ w.self.UpdatedAt < o.UpdatedAt then .ok "slave"
      else .ok "master" := by
  rcases hrole with h | h <;> simp [startType, Whoami, h, hpeer]

/-- C11, the claim fails at a concrete input.  Self was `master` at instant 10.  A peer that
is `single` since instant 5, before self, makes `startType` return `slave`, not `master`;
a peer that is `slave` since instant 20, after self, makes it return `master`, not
`slave`. -/
theorem startType_timestamps_counterexample :
    ((mkNode (mkStatus "primary" "master" "running" 10)).self.DBRole = "master" ∧
      Whoisnot (mkEnv (mkNet (some (mkStatus "secondary" "single" "running" 5)) none [] [])
          (mkNet none none [] []))
        (mkNode (mkStatus "primary" "master" "running" 10)) "primary"
        = some (mkStatus "secondary" "single" "running" 5) ∧
      (mkStatus "secondary" "single" "running" 5).UpdatedAt
        < (mkNode (mkStatus "primary" "master" "running" 10)).self.UpdatedAt ∧
      startType (mkEnv (mkNet (some (mkStatus "secondary" "single" "running" 5)) none [] [])
          (mkNet none none [] []))
        (mkNode (mkStatus "primary" "master" "running" 10)) "master" = .ok "slave" ∧
      startType (mkEnv (mkNet (some (mkStatus "secondary" "single" "running" 5)) none [] [])
          (mkNet none none [] []))
        (mkNode (mkStatus "primary" "master" "running" 10)) "master" ≠ .ok "master") ∧
    (Whoisnot (mkEnv (mkNet (some (mkStatus "secondary" "slave" "running" 20)) none [] [])
          (mkNet none none [] []))
        (mkNode (mkStatus "primary" "master" "running" 10)) "primary"
        = some (mkStatus "secondary" "slave" "running" 20) ∧
      (mkNode (mkStatus "primary" "master" "running" 10)).self.UpdatedAt
        < (mkStatus "secondary" "slave" "running" 20).UpdatedAt ∧
      startType (mkEnv (mkNet (some (mkStatus "secondary" "slave" "running" 20)) none [] [])
          (mkNet none none [] []))
        (mkNode (mkStatus "primary" "master" "running" 10)) "master" = .ok "master" ∧
      startType (mkEnv (mkNet (some (mkStatus "secondary" "slave" "running" 20)) none [] [])
          (mkNet none none [] []))
        (mkNode (mkStatus "primary" "master" "running" 10)) "master" ≠ .ok "slave") := by
  refine ⟨⟨rfl, rfl, by decide, rfl, ?_⟩, ⟨rfl, by decide, rfl, ?_⟩⟩
  · intro h
    exact absurd (Except.ok.inj h) (by decide)
  · intro h
    exact absurd (Except.ok.inj h) (by decide)

/-- C11, amended: for a self whose last role is `master` or `dead(master)` and a reachable
peer, the timestamps decide only next to the role of the peer.  With the peer updated
before self, `startType` returns `master` unless the peer is `single` or `dead(single)`,
where it returns `slave`.  With the peer updated after self, `startType` returns `slave`
when the peer is `master`, `single` or `dead(single)`, and `master` otherwise. -/
theorem startType_timestamps (env : Env) (w : Node) (d : String) (o : Status)
    (hrole : w.self.DBRole = "master" ∨ w.self.DBRole = "dead(master)")
    (hpeer : Whoisnot env w w.self.CRole = some o) :
    (o.UpdatedAt < w.self.UpdatedAt →
      (¬ (o.DBRole = "single" ∨ o.DBRole = "dead(single)") →
        startType env w d = .ok "master") ∧
      ((o.DBRole = "single" ∨ o.DBRole = "dead(single)") →
        startType env w d = .ok "slave")) ∧
    (w.self.UpdatedAt < o.UpdatedAt →
      ((o.DBRole = "master" ∨ o.DBRole = "single" ∨ o.DBRole = "dead(single)") →
        startType env w d = .ok "slave") ∧
      (¬ (o.DBRole = "master" ∨ o.DBRole = "single" ∨ o.DBRole = "dead(single)") →
        startType env w d = .ok "master")) := by
  rw [startType_master_eq env w d o hrole hpeer]
  refine ⟨?_, ?_⟩
  · intro hlt
    refine ⟨?_, ?_⟩
    · intro hn
      have h2 : ¬ (o.DBRole = "master" ∧ w.self.UpdatedAt < o.UpdatedAt) :=
        fun hc => lt_asymm hlt hc.2
      rw [if_neg hn, if_neg h2]
    · intro hs
      rw [if_pos hs]
  · intro hlt
    refine ⟨?_, ?_⟩
    · intro hs
      by_cases h1 : o.DBRole = "single" ∨ o.DBRole = "dead(single)"
      · rw [if_pos h1]
      · rw [if_neg h1]
        rcases hs with hs | hs | hs
        · rw [if_pos ⟨hs, hlt⟩]
        · exact absurd (Or.inl hs) h1
        · exact absurd (Or.inr hs) h1
    · intro hn
      have h1 : ¬ (o.DBRole = "single" ∨ o.DBRole = "dead(single)") := by
        intro hc
        rcases hc with hc | hc
        · exact hn (Or.inr (Or.inl hc))
        · exact hn (Or.inr (Or.inr hc))
      have h2 : ¬ (o.DBRole = "master" ∧ w.self.UpdatedAt < o.UpdatedAt) :=
        fun hc => hn (Or.inl hc.1)
      rw [if_neg h1, if_neg h2]

/-- C11 amended, at a concrete input: self `master` at instant 10, peer `master` since
instant 12: the later master wins and self starts as `slave`. -/
theorem startType_timestamps_witness :
    (mkNode (mkStatus "primary" "master" "running" 10)).self.DBRole = "master" ∧
    Whoisnot (mkEnv (mkNet (some (mkStatus "secondary" "master" "running" 12)) none [] [])
        (mkNet none none [] []))
      (mkNode (mkStatus "primary" "master" "running" 10)) "primary"
      = some (mkStatus "secondary" "master" "running" 12) ∧
    startType (mkEnv (mkNet (some (mkStatus "secondary" "master" "running" 12)) none [] [])
        (mkNet none none [] []))
      (mkNode (mkStatus "primary" "master" "running" 10)) "master" = .ok "slave" :=
  ⟨rfl, rfl, ((startType_timestamps
    (mkEnv (mkNet (some (mkStatus "secondary" "master" "running" 12)) none [] [])
      (mkNet none none [] []))
    (mkNode (mkStatus "primary" "master" "running" 10)) "master"
    (mkStatus "secondary" "master" "running" 12) (Or.inl rfl) rfl).2 (by decide)).1
      (Or.inl rfl)⟩

theorem startType_range (env : Env) (w : Node) (d r : String)
    (h : startType env w d = .ok r) : r = d ∨ r = "master" ∨ r = "slave" := by
  unfold startType at h
  simp only [Whoami] at h
  split_ifs at h with h1 h2 h3 h4
  · exact Or.inl (Except.ok.inj h).symm
  · exact Or.inr (Or.inl (Except.ok.inj h).symm)
  · cases hp : Whoisnot env w w.self.CRole with
    | none =>
      rw [hp] at h
      cases h
    | some o =>
      rw [hp] at h
      simp only at h
      split_ifs at h
      · exact Or.inr (Or.inr (Except.ok.inj h).symm)
      · exact Or.inr (Or.inr (Except.ok.inj h).symm)
      · exact Or.inr (Or.inl (Except.ok.inj h).symm)
  · exact Or.inr (Or.inr (Except.ok.inj h).symm)

theorem startType_outside_aborts (env : Env) (w : Node) (d : String)
    (h : w.self.DBRole ≠ "initialized" ∧ w.self.DBRole ≠ "single" ∧
      w.self.DBRole ≠ "dead(single)" ∧ w.self.DBRole ≠ "master" ∧
      w.self.DBRole ≠ "dead(master)" ∧ w.self.DBRole ≠ "slave" ∧
      w.self.DBRole ≠ "dead(slave)") :
    startType env w d = .error "i should have caught all scenarios" := by
  obtain ⟨h1, h2, h3, h4, h5, h6, h7⟩ := h
  simp [startType, Whoami, h1, h2, h3, h4, h5, h6, h7]

theorem startType_nil_peer (env : Env) (w : Node) (d : String)
    (hrole : w.self.DBRole = "master" ∨ w.self.DBRole = "dead(master)")
    (hpeer : Whoisnot env w w.self.CRole = none) :
    startType env w d = .error "nil pointer dereference" := by
  rcases hrole with h | h <;> simp [startType, Whoami, h, hpeer]

/-- C12, the code at the failing input: the last role of self is `master`, one of the
seven documented values, and the peer lookup fails.  `startType` reads `other.DBRole`
through the nil record and panics; it does not return `master`. -/
theorem startType_unreachable_peer_aborts :
    (mkNode (mkStatus "primary" "master" "running" 10)).self.DBRole = "master" ∧
    Whoisnot (mkEnv (mkNet none (some exMonitor) [] []) (mkNet none none [] []))
      (mkNode (mkStatus "primary" "master" "running" 10)) "primary" = none ∧
    startType (mkEnv (mkNet none (some exMonitor) [] []) (mkNet none none [] []))
      (mkNode (mkStatus "primary" "master" "running" 10)) "master"
      = .error "nil pointer dereference" ∧
    startupDB (mkEnv (mkNet none (some exMonitor) [] []) (mkNet none none [] []))
      (mkNode (mkStatus "primary" "master" "running" 10))
      = .error "nil pointer dereference" :=
  ⟨rfl, rfl, rfl, rfl⟩

/-! ## Stability of change detection and of the steady states -/

theorem memberChanged_congr (env : Env) (w v : Node) (l : List Status)
    (h : ∀ who, Whois env v who = Whois env w who) :
    memberChanged env v l = memberChanged env w l := by
  induction l with
  | nil => rfl
  | cons m rest ih =>
    unfold memberChanged
    rw [h m.CRole, ih]

theorem memberChanged_self (env : Env) (w : Node) (l : List Status)
    (h : ∀ m ∈ l, Whois env w m.CRole = some m) : memberChanged env w l = false := by
  cases hc : memberChanged env w l with
  | false => rfl
  | true =>
    rcases (memberChanged_iff env w l).mp hc with ⟨m, hm, hn⟩ | ⟨m, hm, r, hr, hne⟩
    · rw [h m hm] at hn
      cases hn
    · rw [h m hm] at hr
      cases hr
      exact absurd rfl hne

/-- C13: `clusterChanges` is stable when nothing changes.  Let a second call happen at any
later clock value `t` at which the snapshot provider and the identity lookups answer as
they did for the first call, and let each snapshot member resolve by identity to its own
record.  Then the second call returns false and leaves Last-Known-Cluster exactly as the
first call left it.  (Distinctness of the identities in the snapshot is not needed.) -/
theorem clusterChanges_twice (env : Env) (w : Node) (t : Nat)
    (hsnap : (env.view t).Cluster = (env.view w.clock).Cluster)
    (hlook : ∀ who, (env.view t).Whois who = (env.view w.clock).Whois who)
    (hres : ∀ m ∈ Cluster env w, Whois env w m.CRole = some m) :
    (clusterChanges env { (clusterChanges env w).2 with clock := t }).1 = false ∧
    (clusterChanges env { (clusterChanges env w).2 with clock := t }).2.lastKnownCluster
      = (clusterChanges env w).2.lastKnownCluster := by
  have key : ∀ v : Node, v.clock = t →
      v.lastKnownCluster.length = (Cluster env w).length →
      memberChanged env w v.lastKnownCluster = false →
      (clusterChanges env v).1 = false ∧ (clusterChanges env v).2 = v := by
    intro v hv hlen hmem
    have hc : Cluster env v = Cluster env w := by
      simp only [Cluster, hv, hsnap]
    have hw : ∀ who, Whois env v who = Whois env w who := by
      intro who
      simp only [Whois, hv, hlook]
    have hm : memberChanged env v v.lastKnownCluster = false := by
      rw [memberChanged_congr env w v _ hw, hmem]
    have hlen2 : ¬ v.lastKnownCluster.length ≠ (Cluster env v).length := by
      rw [hc]
      exact not_not.mpr hlen
    unfold clusterChanges
    rw [if_neg hlen2, hm]
    exact ⟨rfl, rfl⟩
  cases hfirst : (clusterChanges env w).1 with
  | true =>
    have hst := clusterChanges_state_of_true env w hfirst
    have h := key { (clusterChanges env w).2 with clock := t } rfl
      (by rw [hst]) (by rw [hst]; exact memberChanged_self env w _ hres)
    exact ⟨h.1, by rw [h.2]⟩
  | false =>
    have hst := clusterChanges_state_of_false env w hfirst
    have hn : ¬ ((Cluster env w).length ≠ w.lastKnownCluster.length ∨
        (∃ m ∈ w.lastKnownCluster, Whois env w m.CRole = none) ∨
        (∃ m ∈ w.lastKnownCluster, ∃ r,
          Whois env w m.CRole = some r ∧ r.DBRole ≠ m.DBRole)) := by
      intro hc
      have := (clusterChanges_flag_iff env w).mpr hc
      rw [hfirst] at this
      cases this
    have hlen : w.lastKnownCluster.length = (Cluster env w).length := by
      by_contra hc
      exact hn (Or.inl (fun h2 => hc h2.symm))
    have hmem : memberChanged env w w.lastKnownCluster = false := by
      cases hc : memberChanged env w w.lastKnownCluster with
      | false => rfl
      | true => exact absurd (Or.inr ((memberChanged_iff env w _).mp hc)) hn
    have h := key { (clusterChanges env w).2 with clock := t } rfl
      (by rw [hst]; exact hlen) (by rw [hst]; exact hmem)
    exact ⟨h.1, by rw [h.2]⟩

/-- C13 at a concrete input: the primary holds a stale cache; the first call returns true
and stores the fresh snapshot, the second call, one clock tick later with the same
answers, returns false and keeps it. -/
theorem clusterChanges_twice_witness :
    (clusterChanges (mkEnv (netOf exFresh) (netOf exFresh))
      { exMasterNode with lastKnownCluster := [] }).1 = true ∧
    (clusterChanges (mkEnv (netOf exFresh) (netOf exFresh))
      { (clusterChanges (mkEnv (netOf exFresh) (netOf exFresh))
          { exMasterNode with lastKnownCluster := [] }).2 with clock := 1 }).1 = false ∧
    (clusterChanges (mkEnv (netOf exFresh) (netOf exFresh))
      { (clusterChanges (mkEnv (netOf exFresh) (netOf exFresh))
          { exMasterNode with lastKnownCluster := [] }).2 with clock := 1 }).2.lastKnownCluster
      = exFresh := by
  have h := clusterChanges_twice (mkEnv (netOf exFresh) (netOf exFresh))
    { exMasterNode with lastKnownCluster := [] } 1 rfl (fun _ => rfl)
    (by
      intro m hm
      have hm2 : m ∈ exFresh := hm
      simp only [exFresh, exFull, List.mem_cons, List.mem_singleton,
        List.not_mem_nil, or_false] at hm2
      rcases hm2 with rfl | rfl | rfl <;> rfl)
  exact ⟨by decide, h.1, h.2⟩

theorem performActionTimes_fixed (env : Env) (w : Node)
    (h : performAction env w = .ok w) : ∀ n, performActionTimes env n w = .ok w := by
  intro n
  induction n with
  | zero => rfl
  | succ k ih =>
    unfold performActionTimes
    rw [h]
    exact ih

theorem performAction_steady (env : Env) (w : Node) (o : Status)
    (hp : peerOnEntry env w = some o)
    (h : (w.self.DBRole = "master" ∧ o.DBRole = "slave") ∨
      (w.self.DBRole = "slave" ∧ o.DBRole = "master")) :
    performAction env w = .ok w := by
  rcases h with ⟨hs, ho⟩ | ⟨hs, ho⟩
  · rw [performAction_master env w hs]
    simp [performActionFromMaster, hp, otherHasRole_some, ho]
  · rw [performAction_slave env w hs]
    simp [performActionFromSlave, hp, otherHasRole_some, ho]

/-- C14: the steady states are no-ops.  For a `master` whose reachable peer is `slave`, and
for a `slave` whose reachable peer is `master`, `performAction` emits no command and
leaves the role and the state of self and Last-Known-Cluster as they were; the state
after the run is the state before it, so any number of runs in a row emits no command at
all. -/
theorem steady_state_idempotent (env : Env) (w : Node) (o : Status)
    (hp : peerOnEntry env w = some o)
    (h : (w.self.DBRole = "master" ∧ o.DBRole = "slave") ∨
      (w.self.DBRole = "slave" ∧ o.DBRole = "master")) :
    (∃ w2, performAction env w = .ok w2 ∧ emitted w w2 = [] ∧
      w2.self.DBRole = w.self.DBRole ∧ w2.self.State = w.self.State ∧
      w2.lastKnownCluster = w.lastKnownCluster ∧ w2 = w) ∧
    (∀ n, ∃ wn, performActionTimes env n w = .ok wn ∧ emitted w wn = [] ∧
      commands wn = commands w ∧ wn = w) :=
  ⟨⟨w, performAction_steady env w o hp h, emitted_self w, rfl, rfl, rfl, rfl⟩,
    fun n => ⟨w, performActionTimes_fixed env w (performAction_steady env w o hp h) n,
      emitted_self w, rfl, rfl⟩⟩

/-- C14 at a concrete input: the primary is `master`, the secondary is reachable as
`slave`; seven runs in a row leave the state untouched. -/
theorem steady_state_idempotent_witness :
    peerOnEntry (mkEnv (netOf exFresh) (netOf exFresh)) exMasterNode
      = some (mkStatus "secondary" "slave" "(slave)running" 21) ∧
    exMasterNode.self.DBRole = "master" ∧
    ∃ wn, performActionTimes (mkEnv (netOf exFresh) (netOf exFresh)) 7 exMasterNode = .ok wn ∧
      emitted exMasterNode wn = [] :=
  ⟨rfl, rfl,
    ((steady_state_idempotent (mkEnv (netOf exFresh) (netOf exFresh)) exMasterNode
      (mkStatus "secondary" "slave" "(slave)running" 21) rfl (Or.inl ⟨rfl, rfl⟩)).2 7).imp
      (fun _ hw => ⟨hw.1, hw.2.1⟩)⟩

/-! ## Roles the dispatch does not know -/

theorem performAction_unrecognized (env : Env) (w : Node)
    (h : w.self.DBRole ≠ "single" ∧ w.self.DBRole ≠ "master" ∧ w.self.DBRole ≠ "slave" ∧
      w.self.DBRole ≠ "dead(master)" ∧ w.self.DBRole ≠ "dead(slave)" ∧
      w.self.DBRole ≠ "dead(single)") :
    performAction env w = .ok w := by
  obtain ⟨h1, h2, h3, h4, h5, h6⟩ := h
  simp [performAction, Whoami, h1, h2, h3, h4, h5, h6]

/-! ## The shape of every run of `performAction` -/

theorem performActionFromSingle_cases (env : Env) (w : Node) (self : Status)
    (other : Option Status) :
    performActionFromSingle env w self other = w ∨
    performActionFromSingle env w self other
      = sendAction "kill" (updateStatusRole env "dead(single)" w) ∨
    performActionFromSingle env w self other
      = sendAction "master" (updateStatusRole env "master" w) := by
  simp only [performActionFromSingle]
  split_ifs <;> simp

theorem performActionFromMaster_cases (env : Env) (w : Node) (self : Status)
    (other : Option Status) :
    performActionFromMaster env w self other = w ∨
    performActionFromMaster env w self other
      = sendAction "single" (updateStatusRole env "single" w) ∨
    performActionFromMaster env w self other = Sleep (decisionTimeout env) w ∨
    performActionFromMaster env w self other
      = sendAction "single" (updateStatusRole env "single" (Sleep (decisionTimeout env) w)) ∨
    performActionFromMaster env w self other
      = sendAction "kill"
          (updateStatusRole env "dead(master)" (Sleep (decisionTimeout env) w)) := by
  simp only [performActionFromMaster]
  split_ifs <;> simp

theorem performActionFromDead_cases (env : Env) (w : Node)
    (hd : w.self.DBRole = "dead(single)" ∨ w.self.DBRole = "dead(master)"
      ∨ w.self.DBRole = "dead(slave)") :
    performActionFromDead env w w.self (peerOnEntry env w) = .ok w ∨
    ∃ r, performActionFromDead env w w.self (peerOnEntry env w)
        = .ok (sendAction r (updateStatusRole env r w)) ∧
      stepAllowed w.self.DBRole r r := by
  by_cases hpc : peerOnEntry env w ≠ none ∧ (Cluster env w).length = 3
  · right
    obtain ⟨o, ho⟩ := Option.ne_none_iff_exists'.mp hpc.1
    rcases hd with h | h | h
    · refine ⟨"master", ?_, ?_⟩
      · unfold performActionFromDead
        rw [if_pos hpc, if_pos h]
      · rw [h]
        simp [stepAllowed]
    · obtain ⟨r, hr⟩ := startType_ok_of_peer env w "master" o ho (Or.inl h)
      refine ⟨r, ?_, ?_⟩
      · unfold performActionFromDead
        rw [if_pos hpc, if_neg (by rw [h]; decide), if_pos h, hr]
      · rw [h]
        rcases startType_range env w "master" r hr with hr2 | hr2 | hr2 <;>
          simp [stepAllowed, hr2]
    · have hr : startType env w "slave" = .ok "slave" := by
        simp [startType, Whoami, h]
      refine ⟨"slave", ?_, ?_⟩
      · unfold performActionFromDead
        rw [if_pos hpc, if_neg (by rw [h]; decide), if_neg (by rw [h]; decide), if_pos h, hr]
      · rw [h]
        simp [stepAllowed]
  · left
    unfold performActionFromDead
    rw [if_neg hpc]

/-- Every run of `performAction` returns, and the state it returns is the entry state,
possibly after the decision-timeout sleep, possibly followed by exactly one role update
and one command taken from `stepAllowed`. -/
theorem performAction_shape (env : Env) (w : Node) :
    ∃ w0 w2, performAction env w = .ok w2 ∧
      (w0 = w ∨ w0 = Sleep (decisionTimeout env) w) ∧
      (w2 = w0 ∨ ∃ r c, w2 = sendAction c (updateStatusRole env r w0) ∧
        stepAllowed w.self.DBRole r c) := by
  by_cases h1 : w.self.DBRole = "single"
  · rw [performAction_single env w h1]
    rcases performActionFromSingle_cases env w w.self (peerOnEntry env w) with h | h | h
    · exact ⟨w, _, rfl, Or.inl rfl, Or.inl h⟩
    · exact ⟨w, _, rfl, Or.inl rfl, Or.inr ⟨_, _, h, by simp [stepAllowed, h1]⟩⟩
    · exact ⟨w, _, rfl, Or.inl rfl, Or.inr ⟨_, _, h, by simp [stepAllowed, h1]⟩⟩
  by_cases h2 : w.self.DBRole = "master"
  · rw [performAction_master env w h2]
    rcases performActionFromMaster_cases env w w.self (peerOnEntry env w) with
      h | h | h | h | h
    · exact ⟨w, _, rfl, Or.inl rfl, Or.inl h⟩
    · exact ⟨w, _, rfl, Or.inl rfl, Or.inr ⟨_, _, h, by simp [stepAllowed, h2]⟩⟩
    · exact ⟨_, _, rfl, Or.inr rfl, Or.inl h⟩
    · exact ⟨_, _, rfl, Or.inr rfl, Or.inr ⟨_, _, h, by simp [stepAllowed, h2]⟩⟩
    · exact ⟨_, _, rfl, Or.inr rfl, Or.inr ⟨_, _, h, by simp [stepAllowed, h2]⟩⟩
  by_cases h3 : w.self.DBRole = "slave"
  · rw [performAction_slave env w h3]
    rcases performActionFromSlave_cases env w w.self (peerOnEntry env w) with
      h | h | ⟨_, h⟩ | h | h | ⟨_, h⟩
    · exact ⟨w, _, rfl, Or.inl rfl, Or.inl h⟩
    · exact ⟨w, _, rfl, Or.inl rfl, Or.inr ⟨_, _, h, by simp [stepAllowed, h3]⟩⟩
    · exact ⟨w, _, rfl, Or.inl rfl, Or.inr ⟨_, _, h, by simp [stepAllowed, h3]⟩⟩
    · exact ⟨_, _, rfl, Or.inr rfl, Or.inl h⟩
    · exact ⟨_, _, rfl, Or.inr rfl, Or.inr ⟨_, _, h, by simp [stepAllowed, h3]⟩⟩
    · exact ⟨_, _, rfl, Or.inr rfl, Or.inr ⟨_, _, h, by simp [stepAllowed, h3]⟩⟩
  by_cases h4 : w.self.DBRole = "dead(single)" ∨ w.self.DBRole = "dead(master)"
      ∨ w.self.DBRole = "dead(slave)"
  · rw [performAction_dead env w h4]
    rcases performActionFromDead_cases env w h4 with h | ⟨r, h, hs⟩
    · exact ⟨w, w, h, Or.inl rfl, Or.inl rfl⟩
    · exact ⟨w, _, h, Or.inl rfl, Or.inr ⟨r, r, rfl, hs⟩⟩
  · have h5 : performAction env w = .ok w := by
      apply performAction_unrecognized
      refine ⟨h1, h2, h3, ?_, ?_, ?_⟩
      · exact fun h => h4 (Or.inr (Or.inl h))
      · exact fun h => h4 (Or.inr (Or.inr h))
      · exact fun h => h4 (Or.inl h)
    exact ⟨w, w, h5, Or.inl rfl, Or.inl rfl⟩

theorem performAction_role (env : Env) (w : Node) :
    ∃ w2, performAction env w = .ok w2 ∧
      (w2.self.DBRole = w.self.DBRole ∨
        ∃ r c, w2.self.DBRole = r ∧ stepAllowed w.self.DBRole r c) := by
  obtain ⟨w0, w2, h, h0, h2⟩ := performAction_shape env w
  have hw0 : w0.self = w.self := by
    rcases h0 with rfl | rfl
    · rfl
    · exact self_sleep _ _
  refine ⟨w2, h, ?_⟩
  rcases h2 with rfl | ⟨r, c, rfl, hs⟩
  · exact Or.inl (by rw [hw0])
  · exact Or.inr ⟨r, c, role_move env r c w0, hs⟩

/-- C19: allowed transitions.  Every run of `performAction` returns (where `startType` is
consulted the peer has just been seen reachable), and the role after the run is: from
`single`, one of `single`, `master`, `dead(single)`; from `master`, one of `master`,
`single`, `dead(master)`; from `slave`, one of `slave`, `single`, `dead(slave)`; from
`dead(single)`, `dead(single)` or `master`; from `dead(master)`, one of `dead(master)`,
`master`, `slave`; from `dead(slave)`, `dead(slave)` or `slave`.  A run that ends in
`dead(X)` started in `X` or in `dead(X)`, and a run from `slave` or `dead(slave)` never
ends in `master`. -/
theorem allowed_transitions (env : Env) (w : Node) :
    ∃ w2, performAction env w = .ok w2 ∧
      (w.self.DBRole = "single" → w2.self.DBRole = "single" ∨
        w2.self.DBRole = "master" ∨ w2.self.DBRole = "dead(single)") ∧
      (w.self.DBRole = "master" → w2.self.DBRole = "master" ∨
        w2.self.DBRole = "single" ∨ w2.self.DBRole = "dead(master)") ∧
      (w.self.DBRole = "slave" → w2.self.DBRole = "slave" ∨
        w2.self.DBRole = "single" ∨ w2.self.DBRole = "dead(slave)") ∧
      (w.self.DBRole = "dead(single)" → w2.self.DBRole = "dead(single)" ∨
        w2.self.DBRole = "master") ∧
      (w.self.DBRole = "dead(master)" → w2.self.DBRole = "dead(master)" ∨
        w2.self.DBRole = "master" ∨ w2.self.DBRole = "slave") ∧
      (w.self.DBRole = "dead(slave)" → w2.self.DBRole = "dead(slave)" ∨
        w2.self.DBRole = "slave") ∧
      (w2.self.DBRole = "dead(single)" →
        w.self.DBRole = "single" ∨ w.self.DBRole = "dead(single)") ∧
      (w2.self.DBRole = "dead(master)" →
        w.self.DBRole = "master" ∨ w.self.DBRole = "dead(master)") ∧
      (w2.self.DBRole = "dead(slave)" →
        w.self.DBRole = "slave" ∨ w.self.DBRole = "dead(slave)") ∧
      (w.self.DBRole = "slave" ∨ w.self.DBRole = "dead(slave)" →
        w2.self.DBRole ≠ "master") := by
  obtain ⟨w2, h, hrole⟩ := performAction_role env w
  refine ⟨w2, h, ?_⟩
  generalize w.self.DBRole = old at hrole ⊢
  generalize w2.self.DBRole = new at hrole ⊢
  rcases hrole with rfl | ⟨r, c, rfl, hs⟩
  · refine ⟨?_, ?_, ?_, ?_, ?_, ?_, ?_, ?_, ?_, ?_⟩
    · exact fun h => Or.inl h
    · exact fun h => Or.inl h
    · exact fun h => Or.inl h
    · exact fun h => Or.inl h
    · exact fun h => Or.inl h
    · exact fun h => Or.inl h
    · exact fun h => Or.inr h
    · exact fun h => Or.inr h
    · exact fun h => Or.inr h
    · intro h
      rcases h with h | h <;> rw [h] <;> decide
  · unfold stepAllowed at hs
    rcases hs with ⟨rfl, ⟨rfl, rfl⟩ | ⟨rfl, rfl⟩⟩ | ⟨rfl, ⟨rfl, rfl⟩ | ⟨rfl, rfl⟩⟩ |
      ⟨rfl, ⟨rfl, rfl⟩ | ⟨rfl, rfl⟩⟩ | ⟨rfl, rfl, rfl⟩ | ⟨rfl, ⟨rfl, rfl⟩ | ⟨rfl, rfl⟩⟩ |
      ⟨rfl, rfl, rfl⟩ <;> decide

/-! ## Command vocabulary -/

theorem commandRule_quiet (w w0 : Node) (n : Int) (h0 : w0 = w ∨ w0 = Sleep n w) :
    CommandRule w w0 := by
  rcases h0 with rfl | rfl
  · simp [CommandRule, emitted_self, effects_self]
  · simp [CommandRule, emitted_sleep, effects_sleep]

theorem commandRule_move (env : Env) (w w0 : Node) (n : Int) (r c : String)
    (h0 : w0 = w ∨ w0 = Sleep n w)
    (hc : c = "kill" ∨ c = "master" ∨ c = "slave" ∨ c = "single")
    (hk : c = "kill" ↔ (r = "dead(single)" ∨ r = "dead(master)" ∨ r = "dead(slave)"))
    (hne : c ≠ "kill" → c = r) :
    CommandRule w (sendAction c (updateStatusRole env r w0)) := by
  rcases h0 with rfl | rfl
  · simp only [CommandRule, emitted_move, effects_move, role_move]
    refine ⟨by simp, ?_, by simp, by simp, ?_⟩
    · intro x hx
      rw [List.mem_singleton] at hx
      rw [hx]
      exact hc
    · intro x hx
      rw [List.mem_singleton] at hx
      rw [hx]
      exact ⟨hk, hne⟩
  · simp only [CommandRule, emitted_sleep_move, effects_sleep_move, role_move]
    refine ⟨by simp, ?_, by simp, by simp, ?_⟩
    · intro x hx
      rw [List.mem_singleton] at hx
      rw [hx]
      exact hc
    · intro x hx
      rw [List.mem_singleton] at hx
      rw [hx]
      exact ⟨hk, hne⟩

theorem stepAllowed_pair (old r c : String) (hs : stepAllowed old r c) :
    (c = "kill" ∨ c = "master" ∨ c = "slave" ∨ c = "single") ∧
    (c = "kill" ↔ (r = "dead(single)" ∨ r = "dead(master)" ∨ r = "dead(slave)")) ∧
    (c ≠ "kill" → c = r) := by
  unfold stepAllowed at hs
  rcases hs with ⟨_, ⟨rfl, rfl⟩ | ⟨rfl, rfl⟩⟩ | ⟨_, ⟨rfl, rfl⟩ | ⟨rfl, rfl⟩⟩ |
    ⟨_, ⟨rfl, rfl⟩ | ⟨rfl, rfl⟩⟩ | ⟨_, rfl, rfl⟩ | ⟨_, ⟨rfl, rfl⟩ | ⟨rfl, rfl⟩⟩ |
    ⟨_, rfl, rfl⟩ <;> decide

theorem startupDB_cases (env : Env) (w w2 : Node) (h : startupDB env w = .ok w2) :
    w2 = w ∨ ∃ r, (r = "master" ∨ r = "slave") ∧
      w2 = sendAction r (updateStatusRole env r w) := by
  unfold startupDB at h
  simp only [Whoami] at h
  split_ifs at h with h1 h2
  · cases hst : startType env w "master" with
    | error e =>
      rw [hst] at h
      cases h
    | ok r =>
      rw [hst] at h
      refine Or.inr ⟨r, ?_, (Except.ok.inj h).symm⟩
      rcases startType_range env w "master" r hst with hr | hr | hr
      · exact Or.inl hr
      · exact Or.inl hr
      · exact Or.inr hr
  · cases hst : startType env w "slave" with
    | error e =>
      rw [hst] at h
      cases h
    | ok r =>
      rw [hst] at h
      refine Or.inr ⟨r, ?_, (Except.ok.inj h).symm⟩
      rcases startType_range env w "slave" r hst with hr | hr | hr
      · exact Or.inr hr
      · exact Or.inl hr
      · exact Or.inr hr
  · exact Or.inl (Except.ok.inj h).symm

theorem onAdvice_demote (env : Env) (w : Node) (hm : w.self.DBRole = "master") :
    onAdvice env "demote" w = .ok (sendAction "kill" (updateStatusRole env "dead(master)" w)) := by
  simp [onAdvice, Whoami, hm]

theorem startupDB_abort (env : Env) (w : Node) (e : String)
    (h : startupDB env w = .error e) : ∃ d, startType env w d = .error e := by
  unfold startupDB at h
  simp only [Whoami] at h
  split_ifs at h
  · cases hst : startType env w "master" with
    | error e2 =>
      rw [hst] at h
      exact ⟨"master", by rw [hst, Except.error.inj h]⟩
    | ok r =>
      rw [hst] at h
      cases h
  · cases hst : startType env w "slave" with
    | error e2 =>
      rw [hst] at h
      exact ⟨"slave", by rw [hst, Except.error.inj h]⟩
    | ok r =>
      rw [hst] at h
      cases h

/-- C18: command vocabulary.  One invocation of `performAction` (which always returns), of
`startupDB` (which returns unless `startType` panics, before any effect), or of the
demote handler (advice `demote` while self is `master`) obeys the command rule: at most
one command; only `kill`, `master`, `slave`, `single`; a command exactly when the role was
written; `kill` exactly when the new role is a `dead(...)` role and otherwise the command
equals the new role. -/
theorem command_vocabulary (env : Env) (w : Node) :
    (∃ w2, performAction env w = .ok w2 ∧ CommandRule w w2) ∧
    (∀ w2, startupDB env w = .ok w2 → CommandRule w w2) ∧
    (∀ e, startupDB env w = .error e → ∃ d, startType env w d = .error e) ∧
    (w.self.DBRole = "master" →
      ∃ w2, onAdvice env "demote" w = .ok w2 ∧ CommandRule w w2) := by
  refine ⟨?_, ?_, startupDB_abort env w, ?_⟩
  · obtain ⟨w0, w2, h, h0, h2⟩ := performAction_shape env w
    refine ⟨w2, h, ?_⟩
    rcases h2 with rfl | ⟨r, c, rfl, hs⟩
    · exact commandRule_quiet w _ (decisionTimeout env) h0
    · obtain ⟨hc, hk, hne⟩ := stepAllowed_pair _ r c hs
      exact commandRule_move env w w0 (decisionTimeout env) r c h0 hc hk hne
  · intro w2 h
    rcases startupDB_cases env w w2 h with rfl | ⟨r, hr, rfl⟩
    · exact commandRule_quiet w2 w2 0 (Or.inl rfl)
    · refine commandRule_move env w w 0 r r (Or.inl rfl) ?_ ?_ (fun _ => rfl)
      · rcases hr with rfl | rfl
        · exact Or.inr (Or.inl rfl)
        · exact Or.inr (Or.inr (Or.inl rfl))
      · rcases hr with rfl | rfl <;> decide
  · intro hm
    refine ⟨_, onAdvice_demote env w hm, ?_⟩
    exact commandRule_move env w w 0 "dead(master)" "kill" (Or.inl rfl) (Or.inl rfl)
      (by decide) (by decide)

/-- C18 at a concrete input: a primary whose last role is `single` starts as `master` and
sends the one command `master`, which is not `kill` and equals the new role. -/
theorem command_vocabulary_witness :
    startupDB (mkEnv (netOf exFresh) (netOf exFresh))
      (mkNode (mkStatus "primary" "single" "running" 10))
      = .ok (sendAction "master" (updateStatusRole (mkEnv (netOf exFresh) (netOf exFresh))
          "master" (mkNode (mkStatus "primary" "single" "running" 10)))) ∧
    CommandRule (mkNode (mkStatus "primary" "single" "running" 10))
      (sendAction "master" (updateStatusRole (mkEnv (netOf exFresh) (netOf exFresh))
          "master" (mkNode (mkStatus "primary" "single" "running" 10)))) ∧
    emitted (mkNode (mkStatus "primary" "single" "running" 10))
      (sendAction "master" (updateStatusRole (mkEnv (netOf exFresh) (netOf exFresh))
          "master" (mkNode (mkStatus "primary" "single" "running" 10)))) = ["master"] :=
  ⟨rfl, (command_vocabulary (mkEnv (netOf exFresh) (netOf exFresh))
      (mkNode (mkStatus "primary" "single" "running" 10))).2.1 _ rfl, rfl⟩

/-! ## Role update, then cache refresh, then command -/

theorem refreshed_move (env : Env) (w w0 : Node) (n : Int) (r c : String)
    (h0 : w0 = w ∨ w0 = Sleep n w) :
    UpdatedThenRefreshed env w (sendAction c (updateStatusRole env r w0)) := by
  refine ⟨w0, r, c, ?_, ?_, role_move env r c w0, rfl, rfl⟩
  · rcases h0 with rfl | rfl
    · simp [effects_self]
    · simp [effects_sleep]
  · rcases h0 with rfl | rfl
    · simp [effects_self, effects_move]
    · simp [effects_sleep, effects_sleep_move]

theorem quiet_emits_nothing (w w0 : Node) (n : Int) (h0 : w0 = w ∨ w0 = Sleep n w) :
    emitted w w0 = [] := by
  rcases h0 with rfl | rfl
  · exact emitted_self _
  · exact emitted_sleep _ _

theorem fresh_cache_no_change (env : Env) (w2 : Node) (t : Nat)
    (hcache : w2.lastKnownCluster = Cluster env w2)
    (hsnap : (env.view t).Cluster = Cluster env w2)
    (hres : ∀ m ∈ (env.view t).Cluster, ∃ r,
      (env.view t).Whois m.CRole = some r ∧ r.DBRole = m.DBRole) :
    (clusterChanges env { w2 with clock := t }).1 = false := by
  cases hc : (clusterChanges env { w2 with clock := t }).1 with
  | false => rfl
  | true =>
    have hL : ({ w2 with clock := t } : Node).lastKnownCluster = (env.view t).Cluster := by
      rw [hsnap]
      exact hcache
    rcases (clusterChanges_flag_iff env { w2 with clock := t }).mp hc with
      h | ⟨m, hm, h⟩ | ⟨m, hm, r, h, hne⟩
    · rw [hL] at h
      exact absurd rfl h
    · rw [hL] at hm
      obtain ⟨r, hr, _⟩ := hres m hm
      have h2 : (env.view t).Whois m.CRole = none := h
      rw [hr] at h2
      cases h2
    · rw [hL] at hm
      obtain ⟨r2, hr, heq⟩ := hres m hm
      have h2 : (env.view t).Whois m.CRole = some r := h
      rw [hr] at h2
      cases h2
      exact absurd heq hne

theorem updatedThenRefreshed_cache (env : Env) (w w2 : Node)
    (h : UpdatedThenRefreshed env w w2) : w2.lastKnownCluster = Cluster env w2 := by
  obtain ⟨w0, r, c, _, _, _, hL, hC⟩ := h
  rw [hL, hC]

/-- C16: every transition updates the role and then refreshes the cache.  For every
invocation of `performAction`, of `startupDB` or of the demote handler that emits a
command, the effects are, in this order, the write of the new role and the send of the
command, nothing but the timeout sleep before them, and Last-Known-Cluster afterwards
is the snapshot read after the role write.  Consequently, when a later call of
`clusterChanges` sees that same snapshot and every member of it resolves by identity to a
record with the same `DBRole`, that call returns false. -/
theorem transition_updates_then_refreshes (env : Env) (w : Node) :
    (∀ w2, performAction env w = .ok w2 → emitted w w2 ≠ [] →
      UpdatedThenRefreshed env w w2) ∧
    (∀ w2, startupDB env w = .ok w2 → emitted w w2 ≠ [] →
      UpdatedThenRefreshed env w w2) ∧
    (w.self.DBRole = "master" →
      ∃ w2, onAdvice env "demote" w = .ok w2 ∧ emitted w w2 ≠ [] ∧
        UpdatedThenRefreshed env w w2) ∧
    (∀ w2 t, (performAction env w = .ok w2 ∨ startupDB env w = .ok w2 ∨
        (w.self.DBRole = "master" ∧ onAdvice env "demote" w = .ok w2)) →
      emitted w w2 ≠ [] →
      (env.view t).Cluster = Cluster env w2 →
      (∀ m ∈ (env.view t).Cluster, ∃ r,
        (env.view t).Whois m.CRole = some r ∧ r.DBRole = m.DBRole) →
      (clusterChanges env { w2 with clock := t }).1 = false) := by
  have hpa : ∀ w2, performAction env w = .ok w2 → emitted w w2 ≠ [] →
      UpdatedThenRefreshed env w w2 := by
    intro w2 h hem
    obtain ⟨w0, w3, h3, h0, hsh⟩ := performAction_shape env w
    rw [h] at h3
    cases h3
    rcases hsh with rfl | ⟨r, c, rfl, _⟩
    · exact absurd (quiet_emits_nothing w _ (decisionTimeout env) h0) hem
    · exact refreshed_move env w w0 (decisionTimeout env) r c h0
  have hsd : ∀ w2, startupDB env w = .ok w2 → emitted w w2 ≠ [] →
      UpdatedThenRefreshed env w w2 := by
    intro w2 h hem
    rcases startupDB_cases env w w2 h with rfl | ⟨r, _, rfl⟩
    · exact absurd (emitted_self _) hem
    · exact refreshed_move env w w 0 r r (Or.inl rfl)
  have hdm : w.self.DBRole = "master" → ∀ w2, onAdvice env "demote" w = .ok w2 →
      UpdatedThenRefreshed env w w2 := by
    intro hm w2 h
    rw [onAdvice_demote env w hm] at h
    cases h
    exact refreshed_move env w w 0 _ _ (Or.inl rfl)
  refine ⟨hpa, hsd, ?_, ?_⟩
  · intro hm
    refine ⟨_, onAdvice_demote env w hm, ?_, hdm hm _ (onAdvice_demote env w hm)⟩
    rw [emitted_move]
    exact List.cons_ne_nil _ _
  · intro w2 t hrun hem hsnap hres
    have hU : UpdatedThenRefreshed env w w2 := by
      rcases hrun with h | h | ⟨hm, h⟩
      · exact hpa w2 h hem
      · exact hsd w2 h hem
      · exact hdm hm w2 h
    exact fresh_cache_no_change env w2 t (updatedThenRefreshed_cache env w w2 hU) hsnap hres

/-- C16 at a concrete input: the primary is `master`, the secondary has vanished, the
monitor is reachable.  The run sleeps, writes `single`, caches the snapshot read after
the write and sends `single`; a later `clusterChanges` against the same snapshot returns
false. -/
theorem transition_updates_then_refreshes_witness :
    performAction (mkEnv (netOf exAlone) (netOf exAlone)) exMasterNode
      = .ok (sendAction "single" (updateStatusRole (mkEnv (netOf exAlone) (netOf exAlone))
          "single" (Sleep 5000000000 exMasterNode))) ∧
    effects exMasterNode
      (sendAction "single" (updateStatusRole (mkEnv (netOf exAlone) (netOf exAlone))
          "single" (Sleep 5000000000 exMasterNode)))
      = [Event.sleep 5000000000, Event.setDBRole "single", Event.send "single"] ∧
    (clusterChanges (mkEnv (netOf exAlone) (netOf exAlone))
      { sendAction "single" (updateStatusRole (mkEnv (netOf exAlone) (netOf exAlone))
          "single" (Sleep 5000000000 exMasterNode)) with clock := 3 }).1 = false := by
  refine ⟨rfl, rfl, ?_⟩
  refine (transition_updates_then_refreshes (mkEnv (netOf exAlone) (netOf exAlone))
    exMasterNode).2.2.2 _ 3 (Or.inl rfl) (by decide) rfl ?_
  intro m hm
  have hm2 : m ∈ exAlone := hm
  simp only [exAlone, List.mem_cons, List.mem_singleton, List.not_mem_nil, or_false] at hm2
  rcases hm2 with rfl | rfl
  · exact ⟨mkStatus "primary" "single" "running" 30, rfl, rfl⟩
  · exact ⟨exMonitor, rfl, rfl⟩

/-! ## Startup sequence -/

/-- C17: startup role resolution.  The startup code is the head of the decision goroutine
of `DecisionStart` followed by `startupDB`.  For a self with identity `monitor` it sets
the role to `monitor` and the state to `running`, emits no command and returns, whatever
inputs arrive later.  For a `primary` self `startupDB` computes `r = startType "master"`,
for a `secondary` self `r = startType "slave"`; it then sets the role of self to `r` and
emits exactly one command, equal to `r`, and the goroutine reaches its event loop in
that state.  When `startType` panics instead, so does `startupDB`. -/
theorem startup_resolution (env : Env) (w : Node) :
    (w.self.CRole = "monitor" → ∀ inputs,
      ∃ w2, decisionBody env inputs w = .ok w2 ∧
        w2.self.DBRole = "monitor" ∧ w2.self.State = "running" ∧ emitted w w2 = [] ∧
        effects w w2 = [Event.setDBRole "monitor", Event.setState "running"]) ∧
    (w.self.CRole = "primary" →
      (∀ r, startType env w "master" = .ok r →
        ∃ w2 w3, startupDB env w = .ok w2 ∧ w2.self.DBRole = r ∧ emitted w w2 = [r] ∧
          effects w w2 = [Event.setDBRole r, Event.send r] ∧
          decisionBody env [] w = .ok w3 ∧ w3.self.DBRole = r ∧ emitted w w3 = [r]) ∧
      (∀ e, startType env w "master" = .error e → startupDB env w = .error e)) ∧
    (w.self.CRole = "secondary" →
      (∀ r, startType env w "slave" = .ok r →
        ∃ w2 w3, startupDB env w = .ok w2 ∧ w2.self.DBRole = r ∧ emitted w w2 = [r] ∧
          effects w w2 = [Event.setDBRole r, Event.send r] ∧
          decisionBody env [] w = .ok w3 ∧ w3.self.DBRole = r ∧ emitted w w3 = [r]) ∧
      (∀ e, startType env w "slave" = .error e → startupDB env w = .error e)) := by
  have run : ∀ r, startupDB env w = .ok (sendAction r (updateStatusRole env r w)) →
      w.self.CRole ≠ "monitor" →
      ∃ w2 w3, startupDB env w = .ok w2 ∧ w2.self.DBRole = r ∧ emitted w w2 = [r] ∧
        effects w w2 = [Event.setDBRole r, Event.send r] ∧
        decisionBody env [] w = .ok w3 ∧ w3.self.DBRole = r ∧ emitted w w3 = [r] := by
    intro r hs hmon
    refine ⟨_, { sendAction r (updateStatusRole env r w) with
        lastKnownCluster := Cluster env (sendAction r (updateStatusRole env r w)) },
      hs, role_move env r r w, emitted_move env r r w, effects_move env r r w, ?_,
      role_move env r r w, emitted_move env r r w⟩
    simp [decisionBody, Whoami, hmon, hs, eventLoop]
  refine ⟨?_, ?_, ?_⟩
  · intro hc inputs
    refine ⟨SetState "running" (SetDBRole "monitor" w), ?_, ?_, ?_, ?_, ?_⟩
    · simp [decisionBody, Whoami, hc]
    · simp [SetState, SetDBRole]
    · simp [SetState, SetDBRole]
    · simp [emitted, effects, SetState, SetDBRole]
    · simp [effects, SetState, SetDBRole]
  · intro hc
    refine ⟨?_, ?_⟩
    · intro r hr
      exact run r (by simp [startupDB, Whoami, hc, hr]) (by rw [hc]; decide)
    · intro e he
      simp [startupDB, Whoami, hc, he]
  · intro hc
    refine ⟨?_, ?_⟩
    · intro r hr
      exact run r (by simp [startupDB, Whoami, hc, hr]) (by rw [hc]; decide)
    · intro e he
      simp [startupDB, Whoami, hc, he]

/-- C17 at a concrete input: a monitor ends its decision goroutine with role `monitor`
and state `running`, even with a tick and a `demote` advice pending. -/
theorem startup_resolution_witness :
    (mkNode (mkStatus "monitor" "initialized" "starting" 0)).self.CRole = "monitor" ∧
    ∃ w2, decisionBody (mkEnv (netOf exFresh) (netOf exFresh))
        [Input.timer, Input.advice "demote"]
        (mkNode (mkStatus "monitor" "initialized" "starting" 0)) = .ok w2 ∧
      w2.self.DBRole = "monitor" ∧ w2.self.State = "running" ∧
      emitted (mkNode (mkStatus "monitor" "initialized" "starting" 0)) w2 = [] := by
  obtain ⟨w2, h, h1, h2, h3, _⟩ := (startup_resolution (mkEnv (netOf exFresh) (netOf exFresh))
    (mkNode (mkStatus "monitor" "initialized" "starting" 0))).1 rfl
    [Input.timer, Input.advice "demote"]
  exact ⟨rfl, w2, h, h1, h2, h3⟩

/-! ## The abort of the dead-state handler -/

theorem startType_error_msg (env : Env) (w : Node) (d e : String)
    (h : startType env w d = .error e) :
    e = "nil pointer dereference" ∨ e = "i should have caught all scenarios" := by
  unfold startType at h
  simp only [Whoami] at h
  split_ifs at h
  · cases hp : Whoisnot env w w.self.CRole with
    | none =>
      rw [hp] at h
      exact Or.inl (Except.error.inj h).symm
    | some o =>
      rw [hp] at h
      simp only at h
      split_ifs at h
  · exact Or.inr (Except.error.inj h).symm

theorem performActionFromDead_no_default (env : Env) (w : Node) (self : Status)
    (other : Option Status)
    (hd : self.DBRole = "dead(master)" ∨ self.DBRole = "dead(slave)"
      ∨ self.DBRole = "dead(single)") :
    performActionFromDead env w self other
      ≠ .error ("i dont know how to be a " ++ self.DBRole) := by
  intro h
  unfold performActionFromDead at h
  simp only at h
  split_ifs at h with h1 h2 h3 h4
  · cases hst : startType env w "master" with
    | error e =>
      rw [hst] at h
      have he := Except.error.inj h
      rw [h3] at he
      rcases startType_error_msg env w "master" e hst with hm | hm
      · rw [hm] at he
        exact absurd he (by decide)
      · rw [hm] at he
        exact absurd he (by decide)
    | ok r =>
      rw [hst] at h
      cases h
  · cases hst : startType env w "slave" with
    | error e =>
      rw [hst] at h
      have he := Except.error.inj h
      rw [h4] at he
      rcases startType_error_msg env w "slave" e hst with hm | hm
      · rw [hm] at he
        exact absurd he (by decide)
      · rw [hm] at he
        exact absurd he (by decide)
    | ok r =>
      rw [hst] at h
      cases h
  · rcases hd with hd | hd | hd
    · exact h3 hd
    · exact h4 hd
    · exact h2 hd

/-- C20: the abort of the dead-state handler is unreachable through the entry point.
`performAction` hands over to `performActionFromDead` only when the role of self is
`dead(master)`, `dead(slave)` or `dead(single)`; for such a self the handler never raises
the panic of its `default` branch, whatever peer record it is given and whatever the
cluster answers; for every other self `performAction` returns without entering it.
Hence no run of `performAction` ends in that panic. -/
theorem dead_default_unreachable (env : Env) (w : Node) :
    ((w.self.DBRole = "dead(master)" ∨ w.self.DBRole = "dead(slave)"
        ∨ w.self.DBRole = "dead(single)") →
      performAction env w = performActionFromDead env w w.self (peerOnEntry env w) ∧
      ∀ other, performActionFromDead env w w.self other
        ≠ .error ("i dont know how to be a " ++ w.self.DBRole)) ∧
    (¬ (w.self.DBRole = "dead(master)" ∨ w.self.DBRole = "dead(slave)"
        ∨ w.self.DBRole = "dead(single)") →
      performAction env w = .ok (performActionFromSingle env w w.self (peerOnEntry env w)) ∨
      performAction env w = .ok (performActionFromMaster env w w.self (peerOnEntry env w)) ∨
      performAction env w = .ok (performActionFromSlave env w w.self (peerOnEntry env w)) ∨
      performAction env w = .ok w) ∧
    performAction env w ≠ .error ("i dont know how to be a " ++ w.self.DBRole) := by
  have hdead : (w.self.DBRole = "dead(master)" ∨ w.self.DBRole = "dead(slave)"
        ∨ w.self.DBRole = "dead(single)") →
      performAction env w = performActionFromDead env w w.self (peerOnEntry env w) := by
    intro hd
    apply performAction_dead
    rcases hd with hd | hd | hd
    · exact Or.inr (Or.inl hd)
    · exact Or.inr (Or.inr hd)
    · exact Or.inl hd
  have hother : ¬ (w.self.DBRole = "dead(master)" ∨ w.self.DBRole = "dead(slave)"
        ∨ w.self.DBRole = "dead(single)") →
      performAction env w = .ok (performActionFromSingle env w w.self (peerOnEntry env w)) ∨
      performAction env w = .ok (performActionFromMaster env w w.self (peerOnEntry env w)) ∨
      performAction env w = .ok (performActionFromSlave env w w.self (peerOnEntry env w)) ∨
      performAction env w = .ok w := by
    intro hn
    by_cases h1 : w.self.DBRole = "single"
    · exact Or.inl (performAction_single env w h1)
    by_cases h2 : w.self.DBRole = "master"
    · exact Or.inr (Or.inl (performAction_master env w h2))
    by_cases h3 : w.self.DBRole = "slave"
    · exact Or.inr (Or.inr (Or.inl (performAction_slave env w h3)))
    · refine Or.inr (Or.inr (Or.inr (performAction_unrecognized env w
        ⟨h1, h2, h3, ?_, ?_, ?_⟩)))
      · exact fun h => hn (Or.inl h)
      · exact fun h => hn (Or.inr (Or.inl h))
      · exact fun h => hn (Or.inr (Or.inr h))
  refine ⟨fun hd => ⟨hdead hd, fun other =>
    performActionFromDead_no_default env w w.self other hd⟩, hother, ?_⟩
  by_cases hd : w.self.DBRole = "dead(master)" ∨ w.self.DBRole = "dead(slave)"
      ∨ w.self.DBRole = "dead(single)"
  · rw [hdead hd]
    exact performActionFromDead_no_default env w w.self _ hd
  · intro h
    rcases hother hd with h2 | h2 | h2 | h2 <;>
    · rw [h2] at h
      cases h

/-- C20 at a concrete input.  Called directly with a `master` self, a reachable peer and a
full snapshot, the handler does reach its `default` branch and panics; through
`performAction` the same self is sent to the `master` handler instead and the run
returns. -/
theorem dead_default_unreachable_witness :
    performActionFromDead (mkEnv (netOf exFresh) (netOf exFresh)) exMasterNode
      exMasterNode.self (peerOnEntry (mkEnv (netOf exFresh) (netOf exFresh)) exMasterNode)
      = .error "i dont know how to be a master" ∧
    performAction (mkEnv (netOf exFresh) (netOf exFresh)) exMasterNode
      ≠ .error ("i dont know how to be a " ++ exMasterNode.self.DBRole) ∧
    performAction (mkEnv (netOf exFresh) (netOf exFresh)) exMasterNode = .ok exMasterNode :=
  ⟨rfl, (dead_default_unreachable (mkEnv (netOf exFresh) (netOf exFresh))
    exMasterNode).2.2, rfl⟩

/-- C19 at a concrete input: a `dead(master)` primary that finds the secondary `single`
in a full cluster comes back as `slave`. -/
theorem allowed_transitions_witness :
    ∃ w2, performAction
        (mkEnv (netOf (exFull (mkStatus "primary" "dead(master)" "down" 10)
          (mkStatus "secondary" "single" "running" 12)))
          (netOf (exFull (mkStatus "primary" "slave" "down" 10)
            (mkStatus "secondary" "single" "running" 12))))
        (mkNode (mkStatus "primary" "dead(master)" "down" 10)) = .ok w2 ∧
      w2.self.DBRole = "slave" ∧
      (w2.self.DBRole = "dead(master)" ∨ w2.self.DBRole = "master" ∨
        w2.self.DBRole = "slave") := by
  obtain ⟨w2, h, _, _, _, _, h5, _⟩ := allowed_transitions
    (mkEnv (netOf (exFull (mkStatus "primary" "dead(master)" "down" 10)
      (mkStatus "secondary" "single" "running" 12)))
      (netOf (exFull (mkStatus "primary" "slave" "down" 10)
        (mkStatus "secondary" "single" "running" 12))))
    (mkNode (mkStatus "primary" "dead(master)" "down" 10))
  have h6 : performAction
      (mkEnv (netOf (exFull (mkStatus "primary" "dead(master)" "down" 10)
        (mkStatus "secondary" "single" "running" 12)))
        (netOf (exFull (mkStatus "primary" "slave" "down" 10)
          (mkStatus "secondary" "single" "running" 12))))
      (mkNode (mkStatus "primary" "dead(master)" "down" 10))
      = .ok (sendAction "slave" (updateStatusRole
        (mkEnv (netOf (exFull (mkStatus "primary" "dead(master)" "down" 10)
          (mkStatus "secondary" "single" "running" 12)))
          (netOf (exFull (mkStatus "primary" "slave" "down" 10)
            (mkStatus "secondary" "single" "running" 12)))) "slave"
        (mkNode (mkStatus "primary" "dead(master)" "down" 10)))) := rfl
  rw [h6] at h
  cases h
  exact ⟨_, rfl, rfl, h5 rfl⟩

/-! ## No unrecognized role reaches the dispatch -/

end Yoke
